import Mathlib

/-!
# Verification of the `APIOptimizer` request optimizer

A shallow embedding of the `APIOptimizer` class (caching, per-domain rate
limiting, per-domain circuit breaking, priority queue for outbound HTTP
requests).  Timestamps are naturals (milliseconds, as from `Date.now()`);
the JavaScript event loop is single threaded, so every method is embedded
as a pure state-passing function.  Network responses and the wall clock
are external, so they are supplied as oracle functions.  JavaScript
truthiness of JSON payloads (`if (cached)`, `!!x`) is modelled explicitly.
-/

namespace APIOptimizer

/-- A JSON value as produced by `response.json()`.  Objects and arrays are
represented only by opaque constructors: their contents never influence the
optimizer's control flow, only their JavaScript truthiness does. -/
inductive JsonVal where
  | vNull
  | vBool (b : Bool)
  | vNum (n : Int)
  | vStr (s : String)
  | vObj
  | vArr
deriving DecidableEq, Repr

/-- JavaScript truthiness of a JSON value: `null`, `false`, `0` and the
empty string are falsy; objects and arrays are always truthy. -/
def JsonVal.truthy : JsonVal → Bool
  | .vNull => false
  | .vBool b => b
  | .vNum n => n != 0
  | .vStr s => !s.isEmpty
  | .vObj => true
  | .vArr => true

/-- Truthiness of `getFromCache`'s result (`any | null`): `null` (here
`none`) is falsy, otherwise the data's own truthiness decides. -/
def optTruthy : Option JsonVal → Bool
  | none => false
  | some d => d.truthy

/-- Truthiness of an optional string field such as `config.cacheKey` or
`config.priority` (`undefined` and `""` are falsy). -/
def keyTruthy : Option String → Bool
  | none => false
  | some s => !s.isEmpty

/-- JavaScript `s || d` for an optional string (used as
`config.priority || 'medium'`). -/
def jsOrStr (s : Option String) (d : String) : String :=
  match s with
  | none => d
  | some s => if s.isEmpty then d else s

/-- JavaScript `n || d` for an optional number: `undefined` and `0` are
falsy (used as `priorities[priority] || 1`). -/
def jsOrNat (n : Option Nat) (d : Nat) : Nat :=
  match n with
  | none => d
  | some v => if v = 0 then d else v

/-- Does the character list start with the given pattern? -/
def charsStartWith : List Char → List Char → Bool
  | _, [] => true
  | [], _ :: _ => false
  | c :: cs, p :: ps => c = p && charsStartWith cs ps

/-- Does the character list contain the pattern as a contiguous run? -/
def charsContain : List Char → List Char → Bool
  | [], p => p.isEmpty
  | c :: rest, p => charsStartWith (c :: rest) p || charsContain rest p

/-- JavaScript `String.prototype.includes`. -/
def strIncludes (s pat : String) : Bool :=
  charsContain s.toList pat.toList

/-- A thrown JavaScript `Error`: its `name` and `message`. -/
structure Err where
  name : String
  msg : String
deriving DecidableEq, Repr

/-- The `Error` thrown for a non-2xx response:
`new Error(\x7bHTTP $\x7bresponse.status\x7d: $\x7bresponse.statusText\x7d\x7d)`. -/
def httpErr (status : Nat) (text : String) : Err :=
  ⟨"Error", "HTTP " ++ toString status ++ ": " ++ text⟩

/-- The error produced when the abort controller fires. -/
def abortErr : Err :=
  ⟨"AbortError", "The operation was aborted"⟩

/-- Outcome of one `fetch` attempt, as seen by the retry loop: either a
parsed JSON body from a 2xx response, or a thrown error (non-2xx status,
network failure, or abort). -/
inductive AttemptOutcome where
  | ok (data : JsonVal)
  | fail (e : Err)
deriving DecidableEq, Repr

/-- `RequestConfig` (url, method, headers and body are carried but only the
url influences the optimizer; optional numeric fields use destructuring
defaults, not `||`). -/
structure RequestConfig where
  url : String
  method : Option String := none
  headers : List (String × String) := []
  body : Option JsonVal := none
  timeout : Option Nat := none
  retries : Option Nat := none
  cacheKey : Option String := none
  priority : Option String := none
  skipCache : Bool := false
deriving DecidableEq, Repr

structure CacheEntry where
  data : JsonVal
  timestamp : Nat
  ttl : Nat
deriving DecidableEq, Repr

structure RateLimiter where
  count : Nat
  resetTime : Nat
deriving DecidableEq, Repr

structure CircuitBreaker where
  failures : Nat
  lastFailure : Nat
  isOpen : Bool
deriving DecidableEq, Repr

/-- A queued request; the `resolve`/`reject` continuations of the source
are represented by the request's `id`, against which the drain loop
reports its results. -/
structure QueuedRequest where
  id : String
  config : RequestConfig
  priority : Nat
  timestamp : Nat
deriving DecidableEq, Repr

/-- Association-list lookup, modelling `Map.get`. -/
def mapGet {V : Type} (m : List (String × V)) (k : String) : Option V :=
  match m with
  | [] => none
  | (k2, v) :: rest => if k2 = k then some v else mapGet rest k

/-- Association-list update, modelling `Map.set` (replaces in place,
appends if absent, like a JavaScript `Map`). -/
def mapSet {V : Type} (m : List (String × V)) (k : String) (v : V) :
    List (String × V) :=
  match m with
  | [] => [(k, v)]
  | (k2, v2) :: rest =>
    if k2 = k then (k, v) :: rest else (k2, v2) :: mapSet rest k v

/-- Association-list removal, modelling `Map.delete`. -/
def mapDelete {V : Type} (m : List (String × V)) (k : String) :
    List (String × V) :=
  match m with
  | [] => []
  | (k2, v) :: rest =>
    if k2 = k then rest else (k2, v) :: mapDelete rest k

/-- The private mutable fields of the `APIOptimizer` instance (the
`isProcessingQueue` reentrancy flag guards the external scheduler and
carries no information needed by the properties below). -/
structure State where
  requestCache : List (String × CacheEntry)
  rateLimiter : List (String × RateLimiter)
  circuitBreaker : List (String × CircuitBreaker)
  requestQueue : List QueuedRequest
deriving DecidableEq, Repr

/-- The freshly-constructed optimizer: every map empty. -/
def State.initial : State := ⟨[], [], [], []⟩

structure RateLimitCfg where
  requests : Nat
  window : Nat
deriving DecidableEq, Repr

/-- The static `RATE_LIMITS` table. -/
def RATE_LIMITS : String → Option RateLimitCfg
  | "nominatim.openstreetmap.org" => some ⟨1, 1000⟩
  | "ipapi.co" => some ⟨1000, 60000⟩
  | "ip-api.com" => some ⟨45, 60000⟩
  | "timeapi.io" => some ⟨100, 60000⟩
  | "api.geonames.org" => some ⟨1000, 3600000⟩
  | _ => none

structure BreakerCfg where
  failureThreshold : Nat
  resetTimeout : Nat
deriving DecidableEq, Repr

/-- The static `CIRCUIT_BREAKER_CONFIG`. -/
def CIRCUIT_BREAKER_CONFIG : BreakerCfg := ⟨5, 60000⟩

/-- `extractDomain`: `new URL(url).hostname`, falling back to `'unknown'`
when the constructor throws.  The WHATWG URL parser is a browser built-in,
external to the repository, so it is supplied as the oracle `urlHost`
(`none` means the constructor throws, i.e. the url is malformed). -/
def extractDomain (urlHost : String → Option String) (url : String) : String :=
  match urlHost url with
  | some h => h
  | none => "unknown"

/-- `getCacheTTL`: per-domain TTL table with a 15-minute default. -/
def getCacheTTL (domain : String) : Nat :=
  match domain with
  | "nominatim.openstreetmap.org" => 60 * 60 * 1000
  | "ipapi.co" => 30 * 60 * 1000
  | "ip-api.com" => 30 * 60 * 1000
  | "timeapi.io" => 60 * 60 * 1000
  | "api.geonames.org" => 60 * 60 * 1000
  | _ => 15 * 60 * 1000

/-- The `priorities` lookup table `\x7b high: 0, medium: 1, low: 2 \x7d`
(`undefined` for any other string). -/
def prioritiesTable : String → Option Nat
  | "high" => some 0
  | "medium" => some 1
  | "low" => some 2
  | _ => none

/-- `getPriorityIndex`: `priorities[priority] || 1`.  Note that `0` is
falsy in JavaScript, so `'high'` (table value 0) yields 1. -/
def getPriorityIndex (priority : String) : Nat :=
  jsOrNat (prioritiesTable priority) 1

/-- `getFromCache`: returns the cached data, or `none` for a missing or
expired entry; an expired entry is deleted (lazy purge). -/
def getFromCache (st : State) (key : String) (now : Nat) :
    Option JsonVal × State :=
  match mapGet st.requestCache key with
  | none => (none, st)
  | some cached =>
    if now > cached.timestamp + cached.ttl then
      (none, { st with requestCache := mapDelete st.requestCache key })
    else
      (some cached.data, st)

/-- `cleanupCache`: purge every expired entry. -/
def cleanupCache (cache : List (String × CacheEntry)) (now : Nat) :
    List (String × CacheEntry) :=
  cache.filter (fun kv => !(now > kv.2.timestamp + kv.2.ttl))

/-- `setCache`: store the entry, then purge expired entries when the cache
holds more than 1000 entries. -/
def setCache (st : State) (key : String) (data : JsonVal) (ttl : Nat)
    (now : Nat) : State :=
  let cache1 := mapSet st.requestCache key ⟨data, now, ttl⟩
  let cache2 := if cache1.length > 1000 then cleanupCache cache1 now else cache1
  { st with requestCache := cache2 }

/-- `checkRateLimit`: fixed-window limiter.  Unconfigured domains always
pass; a missing or elapsed window starts a fresh window with count 1; a
current window admits while `count < requests`, incrementing the count. -/
def checkRateLimit (st : State) (domain : String) (now : Nat) :
    Bool × State :=
  match RATE_LIMITS domain with
  | none => (true, st)
  | some rl =>
    match mapGet st.rateLimiter domain with
    | none =>
      (true, { st with
        rateLimiter := mapSet st.rateLimiter domain ⟨1, now + rl.window⟩ })
    | some limiter =>
      if now ≥ limiter.resetTime then
        (true, { st with
          rateLimiter := mapSet st.rateLimiter domain ⟨1, now + rl.window⟩ })
      else if limiter.count < rl.requests then
        (true, { st with
          rateLimiter :=
            mapSet st.rateLimiter domain
              ⟨limiter.count + 1, limiter.resetTime⟩ })
      else
        (false, st)

/-- `isCircuitOpen`: an open breaker whose cooldown has strictly elapsed
(`now - lastFailure > resetTimeout`) is closed in place with its failure
count reset to 0 (truncated subtraction agrees with the JavaScript
comparison, since a negative difference also fails the `>`). -/
def isCircuitOpen (st : State) (domain : String) (now : Nat) :
    Bool × State :=
  match mapGet st.circuitBreaker domain with
  | none => (false, st)
  | some breaker =>
    if breaker.isOpen then
      if now - breaker.lastFailure > CIRCUIT_BREAKER_CONFIG.resetTimeout then
        (false, { st with
          circuitBreaker :=
            mapSet st.circuitBreaker domain ⟨0, breaker.lastFailure, false⟩ })
      else
        (true, st)
    else
      (false, st)

/-- `recordFailure`: increment the domain's failure count (starting from a
fresh breaker when absent), stamp the failure time, and open the breaker
once the count reaches the threshold. -/
def recordFailure (st : State) (domain : String) (now : Nat) : State :=
  let breaker := (mapGet st.circuitBreaker domain).getD ⟨0, 0, false⟩
  let failures := breaker.failures + 1
  let opened :=
    if failures ≥ CIRCUIT_BREAKER_CONFIG.failureThreshold then true
    else breaker.isOpen
  { st with
    circuitBreaker :=
      mapSet st.circuitBreaker domain ⟨failures, now, opened⟩ }

/-- `resetCircuitBreaker`: delete the domain's breaker entry. -/
def resetCircuitBreaker (st : State) (domain : String) : State :=
  { st with circuitBreaker := mapDelete st.circuitBreaker domain }

/-- `splice(i, 0, x)` for `0 ≤ i ≤ length`. -/
def listInsertAt {α : Type} : Nat → α → List α → List α
  | 0, a, xs => a :: xs
  | _ + 1, a, [] => [a]
  | n + 1, a, x :: xs => x :: listInsertAt n a xs

/-- `queueRequest` (the enqueue part): build the `QueuedRequest` (its
random `id` is external, supplied as `qid`) and insert it before the first
entry of strictly greater priority index, or at the tail when there is
none.  The `processQueue()` kick merely schedules the external drain
loop. -/
def queueRequest (st : State) (cfg : RequestConfig) (now : Nat)
    (qid : String) : State :=
  let qr : QueuedRequest :=
    ⟨qid, cfg, getPriorityIndex (jsOrStr cfg.priority "medium"), now⟩
  let queue :=
    match st.requestQueue.findIdx? (fun req => req.priority > qr.priority) with
    | none => st.requestQueue ++ [qr]
    | some i => listInsertAt i qr st.requestQueue
  { st with requestQueue := queue }

instance {ε α : Type} [DecidableEq ε] [DecidableEq α] :
    DecidableEq (Except ε α) := fun x y =>
  match x, y with
  | .ok a, .ok b =>
    if h : a = b then .isTrue (h ▸ rfl)
    else .isFalse (fun hc => h (Except.ok.inj hc))
  | .error a, .error b =>
    if h : a = b then .isTrue (h ▸ rfl)
    else .isFalse (fun hc => h (Except.error.inj hc))
  | .ok _, .error _ => .isFalse (fun hc => Except.noConfusion hc)
  | .error _, .ok _ => .isFalse (fun hc => Except.noConfusion hc)

/-- Result of `executeRequest`: the value returned or error thrown, the
state after its cache/breaker side effects, and how many `fetch` attempts
were made. -/
structure ExecResult where
  result : Except Err JsonVal
  state : State
  attempts : Nat
deriving DecidableEq, Repr

/-- The body of `executeRequest`'s retry loop.  `net i` is the outcome of
the `i`-th `fetch` attempt and `tOf i` the wall-clock instant at which it
settles; `fuel` counts the attempts the `attempt <= retries` guard still
allows.  A successful attempt caches the payload (when a cache key is
truthy) and clears the domain's breaker; a failed attempt records one
breaker failure and stops retrying on `AbortError` or a message containing
`'404'`. -/
def execGo (cacheKey : Option String) (domain : String)
    (net : Nat → AttemptOutcome) (tOf : Nat → Nat) :
    Nat → Nat → Option Err → State → ExecResult
  | attempt, 0, lastErr, st =>
    ⟨.error (lastErr.getD ⟨"Error", "Request failed after all retries"⟩),
      st, attempt⟩
  | attempt, fuel + 1, _, st =>
    match net attempt with
    | .ok data =>
      let st1 :=
        if keyTruthy cacheKey then
          setCache st (cacheKey.getD "") data (getCacheTTL domain)
            (tOf attempt)
        else st
      let st2 := resetCircuitBreaker st1 domain
      ⟨.ok data, st2, attempt + 1⟩
    | .fail e =>
      let st1 := recordFailure st domain (tOf attempt)
      if e.name == "AbortError" || strIncludes e.msg "404" then
        ⟨.error e, st1, attempt + 1⟩
      else
        execGo cacheKey domain net tOf (attempt + 1) fuel (some e) st1

/-- `executeRequest`: run the retry loop for `retries + 1` attempts
(destructuring default `retries = 3`). -/
def executeRequest (urlHost : String → Option String) (st : State)
    (cfg : RequestConfig) (net : Nat → AttemptOutcome) (tOf : Nat → Nat) :
    ExecResult :=
  let retries := cfg.retries.getD 3
  let domain := extractDomain urlHost cfg.url
  execGo cfg.cacheKey domain net tOf 0 (retries + 1) none st

/-- How a call to `request` resolves at admission time: served from cache,
rejected because the breaker is open, parked in the queue (its promise
pending until the drain loop reaches it), or handed to `executeRequest`
(the only constructor that reaches the network). -/
inductive RequestOutcome where
  | fromCache (data : JsonVal)
  | circuitOpen (domain : String)
  | queued (qid : String)
  | executed (result : Except Err JsonVal) (attempts : Nat)
deriving DecidableEq, Repr

/-- `request`: cache lookup (only when the cache key is truthy and
`skipCache` is not set; note `if (cached)` tests the *data's* truthiness,
so a falsy cached payload falls through to the network), then the breaker
check, then rate-limit admission (enqueueing on refusal), then the direct
send.  All `Date.now()` reads during admission happen with no intervening
`await`, so they are modelled as the single instant `now`. -/
def requestAfterCache (urlHost : String → Option String) (st1 : State)
    (cfg : RequestConfig) (domain : String) (now : Nat)
    (net : Nat → AttemptOutcome) (tOf : Nat → Nat) (qid : String) :
    RequestOutcome × State :=
  match isCircuitOpen st1 domain now with
  | (true, st2) => (.circuitOpen domain, st2)
  | (false, st2) =>
    match checkRateLimit st2 domain now with
    | (false, st3) => (.queued qid, queueRequest st3 cfg now qid)
    | (true, st3) =>
      let r := executeRequest urlHost st3 cfg net tOf
      (.executed r.result r.attempts, r.state)

def request (urlHost : String → Option String) (st : State)
    (cfg : RequestConfig) (now : Nat) (net : Nat → AttemptOutcome)
    (tOf : Nat → Nat) (qid : String) : RequestOutcome × State :=
  let domain := extractDomain urlHost cfg.url
  let cacheStep : Option JsonVal × State :=
    if keyTruthy cfg.cacheKey && !cfg.skipCache then
      getFromCache st (cfg.cacheKey.getD "") now
    else (none, st)
  match cacheStep with
  | (some cached, st1) =>
    if cached.truthy then
      (.fromCache cached, st1)
    else
      requestAfterCache urlHost st1 cfg domain now net tOf qid
  | (none, st1) =>
    requestAfterCache urlHost st1 cfg domain now net tOf qid

/-- One pass of `processQueue`'s while loop (the drain).  `timeAt k` is
the wall-clock instant of the `k`-th iteration, `net k`/`tOf k` the
network oracle for the request executed there.  The loop `shift`s the
head, admits it when `checkRateLimit domain && !isCircuitOpen domain`
(with the source's short-circuit order and side effects), resolving the
caller with the execution result; otherwise it `unshift`s the head back
and breaks (head-of-line: it never skips ahead).  Returns the resolutions
in order together with the final state.  `fuel` bounds the iterations (the
source loop consumes one queue entry per iteration, so
`st.requestQueue.length` suffices); the `setTimeout` rescheduling and the
100 ms inter-send pause live in the external scheduler, i.e. in
`timeAt`. -/
def processQueueGo (urlHost : String → Option String) (timeAt : Nat → Nat)
    (net : Nat → Nat → AttemptOutcome) (tOf : Nat → Nat → Nat) :
    Nat → Nat → State → List (String × Except Err JsonVal) × State
  | _, 0, st => ([], st)
  | k, fuel + 1, st =>
    match st.requestQueue with
    | [] => ([], st)
    | qr :: rest =>
      let st0 := { st with requestQueue := rest }
      let now := timeAt k
      let domain := extractDomain urlHost qr.config.url
      match checkRateLimit st0 domain now with
      | (false, st1) =>
        ([], { st1 with requestQueue := qr :: st1.requestQueue })
      | (true, st1) =>
        match isCircuitOpen st1 domain now with
        | (true, st2) =>
          ([], { st2 with requestQueue := qr :: st2.requestQueue })
        | (false, st2) =>
          let r := executeRequest urlHost st2 qr.config (net k) (tOf k)
          let res := processQueueGo urlHost timeAt net tOf (k + 1) fuel r.state
          ((qr.id, r.result) :: res.1, res.2)

/-- Repeated calls of `request` with one fixed configuration, at the given
sequence of instants, threading the optimizer state. -/
def runSameRequest (urlHost : String → Option String) (cfg : RequestConfig)
    (net : Nat → AttemptOutcome) (tOf : Nat → Nat) :
    List Nat → State → List RequestOutcome × State
  | [], st => ([], st)
  | t :: ts, st =>
    let step := request urlHost st cfg t net tOf "q"
    let res := runSameRequest urlHost cfg net tOf ts step.2
    (step.1 :: res.1, res.2)

/-- One step of a `checkRateLimit` trace: the instant of the call, whether
it admitted the request, and the limiter's `resetTime` immediately after
the call (0 when the domain still has no limiter entry, which for a
configured domain never happens after a call). -/
structure LimiterStep where
  time : Nat
  allowed : Bool
  resetAfter : Nat
deriving DecidableEq, Repr

/-- Run `checkRateLimit` for one domain at each instant of the trace. -/
def runLimiter (domain : String) : List Nat → State → List LimiterStep
  | [], _ => []
  | t :: ts, st =>
    let step := checkRateLimit st domain t
    let ra :=
      ((mapGet step.2.rateLimiter domain).map
        (fun l => l.resetTime)).getD 0
    ⟨t, step.1, ra⟩ :: runLimiter domain ts step.2

/-- The admissions granted inside one rate-limit window, identified by the
window's `resetTime` (successive windows of a domain have strictly
increasing `resetTime`s, so this identification is unambiguous). -/
def windowAllowed (steps : List LimiterStep) (r : Nat) : Nat :=
  (steps.filter (fun s => s.allowed && s.resetAfter == r)).length

/-- The instants at which a limiter trace admitted a request. -/
def allowedTimes (steps : List LimiterStep) : List Nat :=
  (steps.filter (fun s => s.allowed)).map (fun s => s.time)

/-- The admissions already charged to window `r` by the current limiter
state: the current count when the state's window is `r`, else 0 (used as
the inductive invariant of the per-window bound). -/
def windowContrib (st : State) (d : String) (r : Nat) : Nat :=
  match mapGet st.rateLimiter d with
  | none => 0
  | some l => if l.resetTime = r then l.count else 0

/-- `RequestResult` as returned by `batchRequests` (absent optional fields
are `none`). -/
structure RequestResult where
  success : Bool
  data : Option JsonVal := none
  error : Option String := none
  duration : Nat
  fromCache : Option Bool := none
deriving DecidableEq, Repr

/-- The body of the per-item closure in `batchRequests` (source lines
376–391): `res` is the settled value of `await this.request(config)` and
`stAfter` the optimizer state at that point.  On success the `fromCache`
flag re-queries the cache *after* the request completed
(`!!config.cacheKey && !!this.getFromCache(config.cacheKey)`, with
JavaScript truthiness of both the key and the returned data); on a thrown
error the closure catches it and builds a failure record, so the per-item
promise always fulfils. -/
def batchOutcome (cfg : RequestConfig) (res : Except Err JsonVal)
    (stAfter : State) (startTime endTime : Nat) : RequestResult :=
  match res with
  | .ok data =>
    ⟨true, some data, none, endTime - startTime,
      some (keyTruthy cfg.cacheKey &&
        optTruthy (getFromCache stAfter (cfg.cacheKey.getD "") endTime).1)⟩
  | .error e =>
    ⟨false, none, some e.msg, endTime - startTime, none⟩

/-- `requests.map(async config => ...)` with per-index oracles: `resOf i`
is the settled value of `this.request` for item `i` and `stAfter i` the
shared state when item `i`'s closure resumes (the interleaving of the
concurrently running items is external to this model).  Because every
closure catches its own errors, `Promise.allSettled` only ever sees
fulfilled promises and its `rejected` fallback record is dead code. -/
def batchGo (resOf : Nat → Except Err JsonVal) (stAfter : Nat → State)
    (startT endT : Nat → Nat) : Nat → List RequestConfig → List RequestResult
  | _, [] => []
  | i, c :: cs =>
    batchOutcome c (resOf i) (stAfter i) (startT i) (endT i) ::
      batchGo resOf stAfter startT endT (i + 1) cs

/-- `batchRequests`. -/
def batchRequests (cfgs : List RequestConfig)
    (resOf : Nat → Except Err JsonVal) (stAfter : Nat → State)
    (startT endT : Nat → Nat) : List RequestResult :=
  batchGo resOf stAfter startT endT 0 cfgs

/-! ## Concrete scenarios used by the evaluation theorems -/

/-- A URL-parser oracle recognising one well-formed url on the host
`api.test` (a domain without a configured rate limit). -/
def hostApiTest : String → Option String :=
  fun u => if u = "https://api.test/x" then some "api.test" else none

/-- A URL-parser oracle recognising the two nominatim urls of the queue
scenario. -/
def hostNominatim : String → Option String :=
  fun u =>
    if u = "https://nominatim.openstreetmap.org/a" ||
        u = "https://nominatim.openstreetmap.org/b" then
      some "nominatim.openstreetmap.org"
    else none

/-- A URL-parser oracle on which every url is malformed. -/
def hostNone : String → Option String := fun _ => none

/-- Identity attempt-time schedule. -/
def timeId : Nat → Nat := fun i => i

/-- Attempt-time schedule pinned at instant 0. -/
def time0 : Nat → Nat := fun _ => 0

/-- Every attempt succeeds with the (falsy) JSON value `null`. -/
def netNull : Nat → AttemptOutcome := fun _ => .ok .vNull

/-- Every attempt succeeds with a (truthy) JSON object. -/
def netObj : Nat → AttemptOutcome := fun _ => .ok .vObj

/-- Every attempt succeeds with the string `"fresh"`. -/
def netFresh : Nat → AttemptOutcome := fun _ => .ok (.vStr "fresh")

/-- Every attempt fails with a transport error (retryable). -/
def netFailNet : Nat → AttemptOutcome :=
  fun _ => .fail ⟨"TypeError", "network error"⟩

/-- Every attempt fails with HTTP 500 (retryable). -/
def netFail500 : Nat → AttemptOutcome :=
  fun _ => .fail (httpErr 500 "Internal Server Error")

/-- A medium-priority request to nominatim. -/
def cfgNomMedium : RequestConfig :=
  { url := "https://nominatim.openstreetmap.org/a", priority := some "medium" }

/-- A high-priority request to nominatim. -/
def cfgNomHigh : RequestConfig :=
  { url := "https://nominatim.openstreetmap.org/b", priority := some "high" }

/-- Optimizer state in which nominatim's 1-per-second window is exhausted
(one admission in the window ending at instant 1000). -/
def stNomLimited : State :=
  { State.initial with
    rateLimiter := [("nominatim.openstreetmap.org", ⟨1, 1000⟩)] }

/-- The queue obtained by enqueueing, while rate limited, first a
medium-priority request (instant 0) and then a high-priority one
(instant 1). -/
def stQueueMH : State :=
  queueRequest (queueRequest stNomLimited cfgNomMedium 0 "medium-req")
    cfgNomHigh 1 "high-req"

/-- A breaker for domain `"d"` that has just opened: 5 consecutive
failures, the last at instant 0. -/
def stBreakerOpen : State :=
  { State.initial with circuitBreaker := [("d", ⟨5, 0, true⟩)] }

/-- 47 admission instants for `ip-api.com` (quota 45 per 60000 ms): one at
instant 0 (opening the window), 44 at instants 5..48, and two at instants
60000 and 60001 (opening the next window). -/
def trace3 : List Nat :=
  (List.range 45).map (fun i => if i = 0 then 0 else 4 + i) ++ [60000, 60001]

/-- A request to `api.test` with `retries: 3` and no cache key. -/
def cfgRetry3 : RequestConfig := { url := "https://api.test/x", retries := some 3 }

/-- A request with a malformed target URL. -/
def cfgBadUrl : RequestConfig := { url := "notaurl" }

/-- The optimizer state after five failures were recorded against the
`"unknown"` sentinel bucket (all at instant 0). -/
def stUnknown5 : State :=
  (List.range 5).foldl (fun s _ => recordFailure s "unknown" 0) State.initial

/-- A cacheable request to `api.test` under cache key `"k"`. -/
def cfgKeyed : RequestConfig :=
  { url := "https://api.test/x", cacheKey := some "k" }

/-- The same request with the skip-cache flag set. -/
def cfgKeyedSkip : RequestConfig :=
  { url := "https://api.test/x", cacheKey := some "k", skipCache := true }

/-- The failure count currently recorded against a domain (0 when the
domain has no breaker entry, matching `recordFailure`'s default). -/
def breakerFailures (st : State) (domain : String) : Nat :=
  ((mapGet st.circuitBreaker domain).map CircuitBreaker.failures).getD 0

/-- `fuel` successive `recordFailure`s against one domain, at the attempt
instants `tOf attempt`, `tOf (attempt+1)`, ...: the breaker side effect of
an all-failing run of `executeRequest`'s retry loop. -/
def recFailIter (domain : String) (tOf : Nat → Nat) :
    Nat → Nat → State → State
  | _, 0, st => st
  | attempt, fuel + 1, st =>
    recFailIter domain tOf (attempt + 1) fuel
      (recordFailure st domain (tOf attempt))

/-! ## Theorems -/



/-! ### Helper lemmas about the association-list maps and paths through
`request` -/

theorem mapGet_mapSet_self {V : Type} (m : List (String × V)) (k : String)
    (v : V) : mapGet (mapSet m k v) k = some v := by
  induction m with
  | nil => simp [mapSet, mapGet]
  | cons hd tl ih =>
    by_cases hk : hd.1 = k
    · simp [mapSet, mapGet, hk]
    · simp [mapSet, mapGet, hk, ih]

theorem mapGet_filter {V : Type} (p : String × V → Bool)
    (m : List (String × V)) (k : String) (v : V)
    (h : mapGet m k = some v) (hp : p (k, v) = true) :
    mapGet (m.filter p) k = some v := by
  induction m with
  | nil => simp [mapGet] at h
  | cons hd tl ih =>
    by_cases hk : hd.1 = k
    · simp only [mapGet, hk, if_pos] at h
      have hhd : hd = (k, v) := by
        cases hd
        simp_all
      subst hhd
      simp [List.filter, hp, mapGet]
    · simp only [mapGet, hk, if_neg, if_false] at h
      cases hpd : p hd <;> simp [List.filter, hpd, mapGet, hk, ih h]

/-! ### Which state components each operation touches -/

theorem getFromCache_breaker (st : State) (k : String) (now : Nat) :
    (getFromCache st k now).2.circuitBreaker = st.circuitBreaker := by
  unfold getFromCache
  split <;> (try split) <;> rfl

theorem getFromCache_limiter (st : State) (k : String) (now : Nat) :
    (getFromCache st k now).2.rateLimiter = st.rateLimiter := by
  unfold getFromCache
  split <;> (try split) <;> rfl

theorem getFromCache_queue (st : State) (k : String) (now : Nat) :
    (getFromCache st k now).2.requestQueue = st.requestQueue := by
  unfold getFromCache
  split <;> (try split) <;> rfl

theorem isCircuitOpen_cache (st : State) (d : String) (now : Nat) :
    (isCircuitOpen st d now).2.requestCache = st.requestCache := by
  unfold isCircuitOpen
  split <;> (try split) <;> (try split) <;> rfl

theorem isCircuitOpen_limiter (st : State) (d : String) (now : Nat) :
    (isCircuitOpen st d now).2.rateLimiter = st.rateLimiter := by
  unfold isCircuitOpen
  split <;> (try split) <;> (try split) <;> rfl

theorem isCircuitOpen_queue (st : State) (d : String) (now : Nat) :
    (isCircuitOpen st d now).2.requestQueue = st.requestQueue := by
  unfold isCircuitOpen
  split <;> (try split) <;> (try split) <;> rfl

theorem isCircuitOpen_fst_congr (st1 st2 : State) (d : String) (now : Nat)
    (h : st1.circuitBreaker = st2.circuitBreaker) :
    (isCircuitOpen st1 d now).1 = (isCircuitOpen st2 d now).1 := by
  unfold isCircuitOpen
  rw [h]
  split <;> (try split) <;> (try split) <;> rfl

theorem checkRateLimit_fst_congr (st1 st2 : State) (d : String) (now : Nat)
    (h : st1.rateLimiter = st2.rateLimiter) :
    (checkRateLimit st1 d now).1 = (checkRateLimit st2 d now).1 := by
  unfold checkRateLimit
  rw [h]
  split <;> (try rfl) <;> split <;> (try split) <;> (try split) <;> rfl

theorem checkRateLimit_false_state (st : State) (d : String) (now : Nat)
    (h : (checkRateLimit st d now).1 = false) :
    (checkRateLimit st d now).2 = st := by
  unfold checkRateLimit at h ⊢
  cases hR : RATE_LIMITS d with
  | none => rw [hR] at h
  | some rl =>
    rw [hR] at h
    cases hL : mapGet st.rateLimiter d with
    | none => rw [hL] at h; simp at h
    | some limiter =>
      rw [hL] at h
      dsimp only at h ⊢
      split_ifs at h ⊢ <;> simp_all

/-! ### Queue insertion -/

theorem listInsertAt_length {α : Type} (a : α) :
    ∀ (i : Nat) (xs : List α), (listInsertAt i a xs).length = xs.length + 1 := by
  intro i
  induction i with
  | zero => intro xs; rfl
  | succ n ih =>
    intro xs
    cases xs with
    | nil => rfl
    | cons x tl => simp [listInsertAt, ih]

theorem mem_listInsertAt {α : Type} (a x : α) :
    ∀ (i : Nat) (xs : List α),
      x ∈ listInsertAt i a xs ↔ x = a ∨ x ∈ xs := by
  intro i
  induction i with
  | zero =>
    intro xs
    simp [listInsertAt]
  | succ n ih =>
    intro xs
    cases xs with
    | nil => simp [listInsertAt]
    | cons y tl =>
      simp [listInsertAt, ih tl]
      tauto

theorem queueRequest_length (st : State) (cfg : RequestConfig) (now : Nat)
    (qid : String) :
    (queueRequest st cfg now qid).requestQueue.length =
      st.requestQueue.length + 1 := by
  unfold queueRequest
  dsimp only
  split
  · simp
  · simp [listInsertAt_length]

theorem queueRequest_mem (st : State) (cfg : RequestConfig) (now : Nat)
    (qid : String) (q : QueuedRequest) (hq : q ∈ st.requestQueue) :
    q ∈ (queueRequest st cfg now qid).requestQueue := by
  unfold queueRequest
  dsimp only
  split
  · simp [hq]
  · simp [mem_listInsertAt, hq]

theorem queueRequest_mem_new (st : State) (cfg : RequestConfig) (now : Nat)
    (qid : String) :
    (⟨qid, cfg, getPriorityIndex (jsOrStr cfg.priority "medium"), now⟩ :
      QueuedRequest) ∈ (queueRequest st cfg now qid).requestQueue := by
  unfold queueRequest
  dsimp only
  split
  · simp
  · simp [mem_listInsertAt]

/-! ### Paths through `isCircuitOpen`, `executeRequest` and `request` -/

theorem isCircuitOpen_none (st : State) (d : String) (now : Nat)
    (hb : mapGet st.circuitBreaker d = none) :
    isCircuitOpen st d now = (false, st) := by
  unfold isCircuitOpen
  rw [hb]

theorem isCircuitOpen_closed (st : State) (d : String) (now : Nat)
    (b : CircuitBreaker) (hb : mapGet st.circuitBreaker d = some b)
    (hcl : b.isOpen = false) :
    isCircuitOpen st d now = (false, st) := by
  unfold isCircuitOpen
  rw [hb]
  dsimp only
  rw [hcl]
  simp

theorem isCircuitOpen_still_open (st : State) (d : String) (now : Nat)
    (b : CircuitBreaker) (hb : mapGet st.circuitBreaker d = some b)
    (hopen : b.isOpen = true)
    (hcool : ¬ now - b.lastFailure > CIRCUIT_BREAKER_CONFIG.resetTimeout) :
    isCircuitOpen st d now = (true, st) := by
  unfold isCircuitOpen
  rw [hb]
  dsimp only
  rw [hopen]
  simp [hcool]

theorem isCircuitOpen_cooldown (st : State) (d : String) (now : Nat)
    (b : CircuitBreaker) (hb : mapGet st.circuitBreaker d = some b)
    (hopen : b.isOpen = true)
    (hcool : now - b.lastFailure > CIRCUIT_BREAKER_CONFIG.resetTimeout) :
    isCircuitOpen st d now =
      (false, { st with
        circuitBreaker :=
          mapSet st.circuitBreaker d ⟨0, b.lastFailure, false⟩ }) := by
  unfold isCircuitOpen
  rw [hb]
  dsimp only
  rw [hopen]
  simp [hcool]

theorem executeRequest_ok0 (urlHost : String → Option String) (st : State)
    (cfg : RequestConfig) (net : Nat → AttemptOutcome) (tOf : Nat → Nat)
    (data : JsonVal) (hnet : net 0 = .ok data) :
    executeRequest urlHost st cfg net tOf =
      ⟨.ok data,
        resetCircuitBreaker
          (if keyTruthy cfg.cacheKey then
            setCache st (cfg.cacheKey.getD "") data
              (getCacheTTL (extractDomain urlHost cfg.url)) (tOf 0)
          else st)
          (extractDomain urlHost cfg.url), 1⟩ := by
  unfold executeRequest
  dsimp only
  rw [execGo, hnet]

theorem setCache_get_self (st : State) (k : String) (data : JsonVal)
    (ttl now : Nat) :
    mapGet (setCache st k data ttl now).requestCache k =
      some ⟨data, now, ttl⟩ := by
  unfold setCache
  dsimp only
  split
  · apply mapGet_filter
    · exact mapGet_mapSet_self st.requestCache k ⟨data, now, ttl⟩
    · simp [cleanupCache]
  · exact mapGet_mapSet_self st.requestCache k ⟨data, now, ttl⟩

theorem requestAfterCache_open (urlHost : String → Option String)
    (st1 : State) (cfg : RequestConfig) (domain : String) (now : Nat)
    (net : Nat → AttemptOutcome) (tOf : Nat → Nat) (qid : String)
    (b : CircuitBreaker) (hb : mapGet st1.circuitBreaker domain = some b)
    (hopen : b.isOpen = true)
    (hcool : ¬ now - b.lastFailure > CIRCUIT_BREAKER_CONFIG.resetTimeout) :
    requestAfterCache urlHost st1 cfg domain now net tOf qid =
      (.circuitOpen domain, st1) := by
  unfold requestAfterCache
  rw [isCircuitOpen_still_open st1 domain now b hb hopen hcool]

theorem requestAfterCache_queued (urlHost : String → Option String)
    (st1 : State) (cfg : RequestConfig) (domain : String) (now : Nat)
    (net : Nat → AttemptOutcome) (tOf : Nat → Nat) (qid : String)
    (hio : (isCircuitOpen st1 domain now).1 = false)
    (hrl : (checkRateLimit (isCircuitOpen st1 domain now).2 domain now).1
      = false) :
    requestAfterCache urlHost st1 cfg domain now net tOf qid =
      (.queued qid,
        queueRequest (isCircuitOpen st1 domain now).2 cfg now qid) := by
  unfold requestAfterCache
  rw [show isCircuitOpen st1 domain now
      = (false, (isCircuitOpen st1 domain now).2) by
    rw [← hio]]
  dsimp only
  rw [show checkRateLimit (isCircuitOpen st1 domain now).2 domain now
      = (false, (checkRateLimit (isCircuitOpen st1 domain now).2 domain
          now).2) by
    rw [← hrl]]
  dsimp only
  rw [checkRateLimit_false_state _ _ _ hrl]

theorem requestAfterCache_free (urlHost : String → Option String)
    (st1 : State) (cfg : RequestConfig) (domain : String) (now : Nat)
    (net : Nat → AttemptOutcome) (tOf : Nat → Nat) (qid : String)
    (hb : mapGet st1.circuitBreaker domain = none)
    (hrl : RATE_LIMITS domain = none) :
    requestAfterCache urlHost st1 cfg domain now net tOf qid =
      (.executed (executeRequest urlHost st1 cfg net tOf).result
        (executeRequest urlHost st1 cfg net tOf).attempts,
       (executeRequest urlHost st1 cfg net tOf).state) := by
  unfold requestAfterCache
  rw [isCircuitOpen_none st1 domain now hb]
  dsimp only
  unfold checkRateLimit
  rw [hrl]

theorem request_hit (urlHost : String → Option String) (st : State)
    (cfg : RequestConfig) (now : Nat) (net : Nat → AttemptOutcome)
    (tOf : Nat → Nat) (qid : String) (entry : CacheEntry)
    (hkeyT : keyTruthy cfg.cacheKey = true) (hskip : cfg.skipCache = false)
    (he : mapGet st.requestCache (cfg.cacheKey.getD "") = some entry)
    (hvalid : ¬ now > entry.timestamp + entry.ttl)
    (htr : entry.data.truthy = true) :
    request urlHost st cfg now net tOf qid = (.fromCache entry.data, st) := by
  unfold request
  dsimp only
  rw [hkeyT, hskip]
  unfold getFromCache
  rw [he]
  simp [hvalid, htr]

theorem request_miss (urlHost : String → Option String) (st : State)
    (cfg : RequestConfig) (now : Nat) (net : Nat → AttemptOutcome)
    (tOf : Nat → Nat) (qid : String)
    (hkeyT : keyTruthy cfg.cacheKey = true) (hskip : cfg.skipCache = false)
    (he : mapGet st.requestCache (cfg.cacheKey.getD "") = none) :
    request urlHost st cfg now net tOf qid =
      requestAfterCache urlHost st cfg (extractDomain urlHost cfg.url) now
        net tOf qid := by
  unfold request
  dsimp only
  rw [hkeyT, hskip]
  unfold getFromCache
  rw [he]
  simp

theorem request_nolookup (urlHost : String → Option String) (st : State)
    (cfg : RequestConfig) (now : Nat) (net : Nat → AttemptOutcome)
    (tOf : Nat → Nat) (qid : String)
    (hc : (keyTruthy cfg.cacheKey && !cfg.skipCache) = false) :
    request urlHost st cfg now net tOf qid =
      requestAfterCache urlHost st cfg (extractDomain urlHost cfg.url) now
        net tOf qid := by
  unfold request
  dsimp only
  rw [hc]
  simp

theorem checkRateLimit_unlimited (st : State) (d : String) (now : Nat)
    (h : RATE_LIMITS d = none) : checkRateLimit st d now = (true, st) := by
  unfold checkRateLimit
  rw [h]

theorem afterCache_success (urlHost : String → Option String) (st1 : State)
    (cfg : RequestConfig) (now : Nat) (net : Nat → AttemptOutcome)
    (tOf : Nat → Nat) (qid : String) (data : JsonVal)
    (hb : mapGet st1.circuitBreaker (extractDomain urlHost cfg.url) = none)
    (hrl : RATE_LIMITS (extractDomain urlHost cfg.url) = none)
    (hnet : net 0 = .ok data)
    (hkeyT : keyTruthy cfg.cacheKey = true) :
    requestAfterCache urlHost st1 cfg (extractDomain urlHost cfg.url) now
        net tOf qid =
      (.executed (.ok data) 1,
        resetCircuitBreaker
          (setCache st1 (cfg.cacheKey.getD "") data
            (getCacheTTL (extractDomain urlHost cfg.url)) (tOf 0))
          (extractDomain urlHost cfg.url)) := by
  rw [requestAfterCache_free urlHost st1 cfg _ now net tOf qid hb hrl]
  rw [executeRequest_ok0 urlHost st1 cfg net tOf data hnet]
  rw [hkeyT]
  simp

theorem request_network_success (urlHost : String → Option String)
    (st0 : State) (cfg : RequestConfig) (t0 : Nat)
    (net : Nat → AttemptOutcome) (tOf : Nat → Nat) (q0 : String)
    (data : JsonVal)
    (hkeyT : keyTruthy cfg.cacheKey = true)
    (hcs : request urlHost st0 cfg t0 net tOf q0 =
      requestAfterCache urlHost st0 cfg (extractDomain urlHost cfg.url) t0
        net tOf q0)
    (hb : mapGet st0.circuitBreaker (extractDomain urlHost cfg.url) = none)
    (hrl : RATE_LIMITS (extractDomain urlHost cfg.url) = none)
    (hnet : net 0 = .ok data) :
    request urlHost st0 cfg t0 net tOf q0 =
      (.executed (.ok data) 1,
        resetCircuitBreaker
          (setCache st0 (cfg.cacheKey.getD "") data
            (getCacheTTL (extractDomain urlHost cfg.url)) (tOf 0))
          (extractDomain urlHost cfg.url)) := by
  rw [hcs]
  exact afterCache_success urlHost st0 cfg t0 net tOf q0 data hb hrl hnet
    hkeyT

theorem requestAfterCache_not_queued (urlHost : String → Option String)
    (st1 : State) (cfg : RequestConfig) (domain : String) (now : Nat)
    (net : Nat → AttemptOutcome) (tOf : Nat → Nat) (qid : String)
    (h : RATE_LIMITS domain = none) (q : String) :
    (requestAfterCache urlHost st1 cfg domain now net tOf qid).1 ≠
      .queued q := by
  unfold requestAfterCache
  rcases hio : isCircuitOpen st1 domain now with ⟨o, st2⟩
  cases o
  · dsimp only
    rw [checkRateLimit_unlimited st2 domain now h]
    simp
  · simp

theorem request_not_queued_of_unlimited (urlHost : String → Option String)
    (st : State) (cfg : RequestConfig) (now : Nat)
    (net : Nat → AttemptOutcome) (tOf : Nat → Nat) (qid : String)
    (h : RATE_LIMITS (extractDomain urlHost cfg.url) = none) (q : String) :
    (request urlHost st cfg now net tOf qid).1 ≠ .queued q := by
  unfold request
  dsimp only
  split
  · split
    · simp
    · exact requestAfterCache_not_queued urlHost _ cfg _ now net tOf qid h q
  · exact requestAfterCache_not_queued urlHost _ cfg _ now net tOf qid h q

/-! ### The fixed-window rate limiter, case by case -/

theorem RATE_LIMITS_pos (d : String) (c : RateLimitCfg)
    (h : RATE_LIMITS d = some c) : 1 ≤ c.requests ∧ 1 ≤ c.window := by
  unfold RATE_LIMITS at h
  split at h <;>
    first
      | (injection h with h2; subst h2; decide)
      | simp at h

theorem checkRateLimit_reset_none (d : String) (c : RateLimitCfg)
    (st : State) (now : Nat) (hc : RATE_LIMITS d = some c)
    (hm : mapGet st.rateLimiter d = none) :
    checkRateLimit st d now =
      (true, { st with
        rateLimiter := mapSet st.rateLimiter d ⟨1, now + c.window⟩ }) := by
  unfold checkRateLimit
  rw [hc, hm]

theorem checkRateLimit_reset_elapsed (d : String) (c : RateLimitCfg)
    (st : State) (now : Nat) (l : RateLimiter) (hc : RATE_LIMITS d = some c)
    (hm : mapGet st.rateLimiter d = some l) (hrt : now ≥ l.resetTime) :
    checkRateLimit st d now =
      (true, { st with
        rateLimiter := mapSet st.rateLimiter d ⟨1, now + c.window⟩ }) := by
  unfold checkRateLimit
  rw [hc, hm]
  dsimp only
  rw [if_pos hrt]

theorem checkRateLimit_inc (d : String) (c : RateLimitCfg) (st : State)
    (now : Nat) (l : RateLimiter) (hc : RATE_LIMITS d = some c)
    (hm : mapGet st.rateLimiter d = some l) (hrt : ¬ now ≥ l.resetTime)
    (hcnt : l.count < c.requests) :
    checkRateLimit st d now =
      (true, { st with
        rateLimiter :=
          mapSet st.rateLimiter d ⟨l.count + 1, l.resetTime⟩ }) := by
  unfold checkRateLimit
  rw [hc, hm]
  dsimp only
  rw [if_neg hrt, if_pos hcnt]

theorem checkRateLimit_deny (d : String) (c : RateLimitCfg) (st : State)
    (now : Nat) (l : RateLimiter) (hc : RATE_LIMITS d = some c)
    (hm : mapGet st.rateLimiter d = some l) (hrt : ¬ now ≥ l.resetTime)
    (hcnt : ¬ l.count < c.requests) :
    checkRateLimit st d now = (false, st) := by
  unfold checkRateLimit
  rw [hc, hm]
  dsimp only
  rw [if_neg hrt, if_neg hcnt]

theorem checkRateLimit_entry_ge (st : State) (d : String) (now : Nat)
    (l : RateLimiter) (hl : mapGet st.rateLimiter d = some l) :
    ∃ l2, mapGet (checkRateLimit st d now).2.rateLimiter d = some l2 ∧
      l.resetTime ≤ l2.resetTime := by
  cases hc : RATE_LIMITS d with
  | none =>
    rw [checkRateLimit_unlimited st d now hc]
    exact ⟨l, hl, Nat.le_refl _⟩
  | some c =>
    by_cases hrt : now ≥ l.resetTime
    · rw [checkRateLimit_reset_elapsed d c st now l hc hl hrt]
      exact ⟨⟨1, now + c.window⟩, mapGet_mapSet_self _ _ _,
        by dsimp only; omega⟩
    · by_cases hcnt : l.count < c.requests
      · rw [checkRateLimit_inc d c st now l hc hl hrt hcnt]
        exact ⟨⟨l.count + 1, l.resetTime⟩, mapGet_mapSet_self _ _ _,
          Nat.le_refl _⟩
      · rw [checkRateLimit_deny d c st now l hc hl hrt hcnt]
        exact ⟨l, hl, Nat.le_refl _⟩

theorem runLimiter_cons (d : String) (t : Nat) (ts : List Nat)
    (st : State) :
    runLimiter d (t :: ts) st =
      ⟨t, (checkRateLimit st d t).1,
        ((mapGet (checkRateLimit st d t).2.rateLimiter d).map
          (fun l => l.resetTime)).getD 0⟩ ::
        runLimiter d ts (checkRateLimit st d t).2 := rfl

theorem windowAllowed_cons (s : LimiterStep) (rest : List LimiterStep)
    (r : Nat) :
    windowAllowed (s :: rest) r =
      (if (s.allowed && s.resetAfter == r) = true then 1 else 0) +
        windowAllowed rest r := by
  unfold windowAllowed
  rw [List.filter_cons]
  cases h : (s.allowed && (s.resetAfter == r)) <;> simp [h] <;> omega

theorem windowAllowed_zero (steps : List LimiterStep) (r : Nat)
    (h : ∀ s ∈ steps, s.resetAfter ≠ r) : windowAllowed steps r = 0 := by
  induction steps with
  | nil => rfl
  | cons s ss ih =>
    rw [windowAllowed_cons]
    have hne : (s.allowed && (s.resetAfter == r)) = false := by
      have := h s (List.mem_cons_self s ss)
      cases ha : s.allowed <;> simp [this]
    rw [hne]
    simpa using ih (fun x hx => h x (List.mem_cons_of_mem s hx))

theorem runLimiter_resetAfter_ge (d : String) :
    ∀ (trace : List Nat) (st : State) (l : RateLimiter),
      mapGet st.rateLimiter d = some l →
      ∀ s ∈ runLimiter d trace st, l.resetTime ≤ s.resetAfter := by
  intro trace
  induction trace with
  | nil =>
    intro st l hl s hs
    simp [runLimiter] at hs
  | cons t ts ih =>
    intro st l hl s hs
    rw [runLimiter_cons] at hs
    obtain ⟨l2, hl2, hge⟩ := checkRateLimit_entry_ge st d t l hl
    rcases List.mem_cons.mp hs with rfl | hs2
    · rw [hl2]
      simp only [Option.map_some', Option.getD_some]
      omega
    · exact Nat.le_trans hge (ih (checkRateLimit st d t).2 l2 hl2 s hs2)

theorem runLimiter_window_bound (d : String) (c : RateLimitCfg)
    (hc : RATE_LIMITS d = some c) (hreq : 1 ≤ c.requests)
    (hwin : 1 ≤ c.window) :
    ∀ (trace : List Nat) (st : State) (r : Nat),
      (∀ l, mapGet st.rateLimiter d = some l → l.count ≤ c.requests) →
      windowAllowed (runLimiter d trace st) r + windowContrib st d r ≤
        c.requests := by
  intro trace
  induction trace with
  | nil =>
    intro st r hinv
    unfold windowAllowed windowContrib
    dsimp only [runLimiter]
    cases hm : mapGet st.rateLimiter d with
    | none => simp
    | some l =>
      dsimp only
      split
      · simpa using hinv l hm
      · simp
  | cons t ts ih =>
    intro st r hinv
    rw [runLimiter_cons, windowAllowed_cons]
    cases hm : mapGet st.rateLimiter d with
    | none =>
      rw [checkRateLimit_reset_none d c st t hc hm]
      have hcst : windowContrib st d r = 0 := by
        unfold windowContrib
        rw [hm]
      have hinv2 : ∀ l2, mapGet ({ st with
          rateLimiter := mapSet st.rateLimiter d ⟨1, t + c.window⟩ } :
            State).rateLimiter d = some l2 → l2.count ≤ c.requests := by
        intro l2 hl2
        rw [show ({ st with
            rateLimiter := mapSet st.rateLimiter d ⟨1, t + c.window⟩ } :
              State).rateLimiter =
            mapSet st.rateLimiter d ⟨1, t + c.window⟩ from rfl,
          mapGet_mapSet_self] at hl2
        injection hl2 with hl3
        rw [← hl3]
        exact hreq
      have hIH := ih _ r hinv2
      have hcst2 : windowContrib { st with
          rateLimiter := mapSet st.rateLimiter d ⟨1, t + c.window⟩ } d r =
          if t + c.window = r then 1 else 0 := by
        unfold windowContrib
        dsimp only
        rw [mapGet_mapSet_self]
      rw [hcst2] at hIH
      rw [hcst]
      dsimp only
      rw [mapGet_mapSet_self]
      simp only [Option.map_some', Option.getD_some, Bool.true_and]
      by_cases hr : t + c.window = r
      · rw [if_pos hr] at hIH
        have hbeq : ((t + c.window : Nat) == r) = true := by simp [hr]
        rw [hbeq]
        simp only [if_true]
        omega
      · rw [if_neg hr] at hIH
        have : ((t + c.window : Nat) == r) = false := by
          simp [hr]
        rw [this]
        simp only [Bool.false_eq_true, if_false]
        omega
    | some l =>
      by_cases hrt : t ≥ l.resetTime
      · -- window elapsed: reset
        rw [checkRateLimit_reset_elapsed d c st t l hc hm hrt]
        have hinv2 : ∀ l2, mapGet ({ st with
            rateLimiter := mapSet st.rateLimiter d ⟨1, t + c.window⟩ } :
              State).rateLimiter d = some l2 → l2.count ≤ c.requests := by
          intro l2 hl2
          rw [show ({ st with
              rateLimiter := mapSet st.rateLimiter d ⟨1, t + c.window⟩ } :
                State).rateLimiter =
              mapSet st.rateLimiter d ⟨1, t + c.window⟩ from rfl,
            mapGet_mapSet_self] at hl2
          injection hl2 with hl3
          rw [← hl3]
          exact hreq
        have hIH := ih _ r hinv2
        have hcst2 : windowContrib { st with
            rateLimiter := mapSet st.rateLimiter d ⟨1, t + c.window⟩ } d r =
            if t + c.window = r then 1 else 0 := by
          unfold windowContrib
          dsimp only
          rw [mapGet_mapSet_self]
        rw [hcst2] at hIH
        dsimp only
        rw [mapGet_mapSet_self]
        simp only [Option.map_some', Option.getD_some, Bool.true_and]
        by_cases hlr : l.resetTime = r
        · -- the old window is r: it takes no further admissions
          have hne : t + c.window ≠ r := by omega
          have hzero : windowAllowed (runLimiter d ts { st with
              rateLimiter :=
                mapSet st.rateLimiter d ⟨1, t + c.window⟩ }) r = 0 := by
            apply windowAllowed_zero
            intro s hs
            have := runLimiter_resetAfter_ge d ts _ ⟨1, t + c.window⟩
              (mapGet_mapSet_self _ _ _) s hs
            dsimp only at this
            omega
          have hcst : windowContrib st d r = l.count := by
            unfold windowContrib
            rw [hm]
            dsimp only
            rw [if_pos hlr]
          rw [hcst, hzero]
          have : ((t + c.window : Nat) == r) = false := by
            simp [hne]
          rw [this]
          simp only [Bool.false_eq_true, if_false]
          have := hinv l hm
          omega
        · have hcst : windowContrib st d r = 0 := by
            unfold windowContrib
            rw [hm]
            dsimp only
            rw [if_neg hlr]
          rw [hcst]
          by_cases hr : t + c.window = r
          · rw [if_pos hr] at hIH
            have hbeq : ((t + c.window : Nat) == r) = true := by simp [hr]
            rw [hbeq]
            simp only [if_true]
            omega
          · rw [if_neg hr] at hIH
            have : ((t + c.window : Nat) == r) = false := by
              simp [hr]
            rw [this]
            simp only [Bool.false_eq_true, if_false]
            omega
      · by_cases hcnt : l.count < c.requests
        · -- same window, below quota: increment
          rw [checkRateLimit_inc d c st t l hc hm hrt hcnt]
          have hinv2 : ∀ l2, mapGet ({ st with
              rateLimiter :=
                mapSet st.rateLimiter d ⟨l.count + 1, l.resetTime⟩ } :
                  State).rateLimiter d = some l2 →
              l2.count ≤ c.requests := by
            intro l2 hl2
            rw [show ({ st with
                rateLimiter :=
                  mapSet st.rateLimiter d ⟨l.count + 1, l.resetTime⟩ } :
                    State).rateLimiter =
                mapSet st.rateLimiter d ⟨l.count + 1, l.resetTime⟩ from rfl,
              mapGet_mapSet_self] at hl2
            injection hl2 with hl3
            rw [← hl3]
            exact hcnt
          have hIH := ih _ r hinv2
          have hcst2 : windowContrib { st with
              rateLimiter :=
                mapSet st.rateLimiter d ⟨l.count + 1, l.resetTime⟩ } d r =
              if l.resetTime = r then l.count + 1 else 0 := by
            unfold windowContrib
            dsimp only
            rw [mapGet_mapSet_self]
          rw [hcst2] at hIH
          dsimp only
          rw [mapGet_mapSet_self]
          simp only [Option.map_some', Option.getD_some, Bool.true_and]
          by_cases hlr : l.resetTime = r
          · rw [if_pos hlr] at hIH
            have hcst : windowContrib st d r = l.count := by
              unfold windowContrib
              rw [hm]
              dsimp only
              rw [if_pos hlr]
            rw [hcst]
            have hbeq : (l.resetTime == r) = true := by simp [hlr]
            rw [hbeq]
            simp only [if_true]
            omega
          · rw [if_neg hlr] at hIH
            have hcst : windowContrib st d r = 0 := by
              unfold windowContrib
              rw [hm]
              dsimp only
              rw [if_neg hlr]
            rw [hcst]
            have : (l.resetTime == r) = false := by
              simp [hlr]
            rw [this]
            simp only [Bool.false_eq_true, if_false]
            omega
        · -- same window, at quota: deny, state unchanged
          rw [checkRateLimit_deny d c st t l hc hm hrt hcnt]
          have hIH := ih st r hinv
          dsimp only
          rw [hm]
          simp only [Option.map_some', Option.getD_some, Bool.false_and,
            Bool.false_eq_true, if_false]
          omega

/-! ### The all-failing retry loop -/

theorem recordFailure_failures (st : State) (d : String) (now : Nat) :
    breakerFailures (recordFailure st d now) d = breakerFailures st d + 1 := by
  unfold recordFailure breakerFailures
  dsimp only
  rw [mapGet_mapSet_self]
  cases h : mapGet st.circuitBreaker d <;> simp [h]

theorem recFailIter_failures (d : String) (tOf : Nat → Nat) :
    ∀ (fuel attempt : Nat) (st : State),
      breakerFailures (recFailIter d tOf attempt fuel st) d =
        breakerFailures st d + fuel := by
  intro fuel
  induction fuel with
  | zero => intro attempt st; rfl
  | succ n ih =>
    intro attempt st
    rw [recFailIter, ih (attempt + 1), recordFailure_failures]
    omega

theorem execGo_allFail (key : Option String) (d : String)
    (net : Nat → AttemptOutcome) (tOf : Nat → Nat) (e : Nat → Err) :
    ∀ (fuel attempt : Nat) (lastErr : Option Err) (st : State),
      (∀ i, attempt ≤ i → i < attempt + fuel → net i = .fail (e i) ∧
        (e i).name ≠ "AbortError" ∧ strIncludes (e i).msg "404" = false) →
      0 < fuel →
      execGo key d net tOf attempt fuel lastErr st =
        ⟨.error (e (attempt + fuel - 1)),
          recFailIter d tOf attempt fuel st, attempt + fuel⟩ := by
  intro fuel
  induction fuel with
  | zero =>
    intro attempt lastErr st _ hpos
    exact absurd hpos (by omega)
  | succ n ih =>
    intro attempt lastErr st h _
    obtain ⟨hnet, hname, h404⟩ := h attempt (Nat.le_refl _) (by omega)
    rw [execGo, hnet]
    dsimp only
    have hnb : (((e attempt).name == "AbortError") ||
        strIncludes (e attempt).msg "404") = false := by
      simp [h404, hname]
    rw [hnb]
    simp only [Bool.false_eq_true, if_false]
    cases n with
    | zero =>
      rw [execGo]
      simp [recFailIter]
    | succ m =>
      rw [ih (attempt + 1) (some (e attempt))
        (recordFailure st d (tOf attempt))
        (fun i h1 h2 => h i (by omega) (by omega)) (by omega)]
      have h1 : attempt + 1 + (m + 1) - 1 = attempt + (m + 1 + 1) - 1 := by
        omega
      have h2 : attempt + 1 + (m + 1) = attempt + (m + 1 + 1) := by omega
      rw [h1, h2]
      rfl

/-- **C1** (code bug): the claimed queue invariant — every high-priority
entry before every medium-priority entry — is broken by the source:
`getPriorityIndex` computes `priorities[priority] || 1`, and since
`priorities['high']` is `0` (falsy in JavaScript), `'high'` gets index 1,
the same as `'medium'`.  Concretely: a medium-priority request queued
before a high-priority one keeps its place (FIFO among what the code
treats as equal priority), and the drain loop resolves the medium request
first, contradicting the code's own `\x7b high: 0, medium: 1, low: 2 \x7d`
table and the spec. -/
theorem c1_priority_inversion_eval :
    getPriorityIndex "high" = getPriorityIndex "medium" ∧
    stQueueMH.requestQueue.map (fun q => q.id) = ["medium-req", "high-req"] ∧
    ((processQueueGo hostNominatim (fun k => 2000 + 2000 * k)
        (fun _ _ => .ok .vObj) (fun _ _ => 0) 0 2 stQueueMH).1.map
          Prod.fst) = ["medium-req", "high-req"] :=
  ⟨rfl, rfl, rfl⟩

/-- **C2** (counterexample): after the cooldown has elapsed it is not the
case that "exactly one trial request is allowed through, whose failure
reopens the breaker": from an open breaker (5 failures, last at instant 0)
at instant 60001 the admission check closes the breaker and resets its
failure count to 0, so a *second* admission check passes as well, and a
subsequent failure leaves the breaker with one failure and *closed* —
it is not reopened. -/
theorem c2_counterexample :
    (isCircuitOpen stBreakerOpen "d" 60001).1 = false ∧
    (isCircuitOpen (isCircuitOpen stBreakerOpen "d" 60001).2 "d" 60001).1
      = false ∧
    mapGet (recordFailure (isCircuitOpen stBreakerOpen "d" 60001).2 "d"
      60001).circuitBreaker "d" = some ⟨1, 60001, false⟩ ∧
    (isCircuitOpen (recordFailure (isCircuitOpen stBreakerOpen "d" 60001).2
      "d" 60001) "d" 60002).1 = false :=
  ⟨rfl, rfl, rfl, rfl⟩

/-- **C3** (counterexample): the fixed-window limiter does *not* bound the
sends in every W-length interval by the quota N.  For `ip-api.com`
(N = 45, W = 60000), the 47 admission instants of `trace3` are all
admitted, and 46 of them fall in the interval [5, 60001] of length
59996 < 60000. -/
theorem c3_counterexample :
    RATE_LIMITS "ip-api.com" = some ⟨45, 60000⟩ ∧
    (allowedTimes (runLimiter "ip-api.com" trace3 State.initial)).length
      = 47 ∧
    ((allowedTimes (runLimiter "ip-api.com" trace3 State.initial)).filter
      (fun t => 5 ≤ t && t ≤ 60001)).length = 46 ∧
    60001 - 5 < 60000 ∧ 45 < 46 :=
  ⟨rfl, rfl, rfl, by norm_num, by norm_num⟩

/-- **C4** (counterexample): a direct send that exhausts all attempts does
*not* record exactly one failure — `recordFailure` runs in the catch block
of every attempt.  With `retries: 3` and every attempt failing with a
transport error, the domain's breaker ends with 4 recorded failures. -/
theorem c4_counterexample :
    ((mapGet (executeRequest hostApiTest State.initial cfgRetry3 netFailNet
        timeId).state.circuitBreaker "api.test").map
      CircuitBreaker.failures) = some 4 ∧ (4 : Nat) ≠ 1 :=
  ⟨by decide, by norm_num⟩

/-- **C5** (counterexample): the `"unknown"` bucket *is* breaker-tripped.
After five failures recorded against `"unknown"`, a request whose target
URL is malformed (every url unparseable) is rejected with a circuit-open
error for `"unknown"`. -/
theorem c5_counterexample :
    extractDomain hostNone "notaurl" = "unknown" ∧
    (mapGet stUnknown5.circuitBreaker "unknown").map CircuitBreaker.isOpen
      = some true ∧
    (request hostNone stUnknown5 cfgBadUrl 1000 netObj timeId "q").1
      = .circuitOpen "unknown" :=
  ⟨rfl, rfl, rfl⟩

/-- **C7** (counterexample): with a *falsy* cached payload the cache is
bypassed.  A first request under key `"k"` fetches JSON `null` over the
network and caches it; a second request with the same key, skip-cache
unset, 5 ms later (far within the 15-minute TTL) nevertheless performs a
network attempt (`executed`, 1 attempt) instead of returning the cached
payload, because `if (cached)` tests the data's JavaScript truthiness. -/
theorem c7_counterexample :
    (request hostApiTest State.initial cfgKeyed 0 netNull time0 "q1").1
      = .executed (.ok .vNull) 1 ∧
    mapGet (request hostApiTest State.initial cfgKeyed 0 netNull time0
      "q1").2.requestCache "k" = some ⟨.vNull, 0, 900000⟩ ∧
    (request hostApiTest
      (request hostApiTest State.initial cfgKeyed 0 netNull time0 "q1").2
      cfgKeyed 5 netFresh timeId "q2").1 = .executed (.ok (.vStr "fresh")) 1 :=
  ⟨rfl, rfl, rfl⟩

/-- **C9** (counterexample): the re-queried `fromCache` flag is *not*
always `true` for a network-fetched-and-cached response: when the payload
is falsy (JSON `null`), `!!this.getFromCache(key)` is `false`, so the
outcome reports `fromCache: false` even though the value was fetched and
written to the cache. -/
theorem c9_counterexample :
    (request hostApiTest State.initial cfgKeyed 0 netNull time0 "q1").1
      = .executed (.ok .vNull) 1 ∧
    mapGet (request hostApiTest State.initial cfgKeyed 0 netNull time0
      "q1").2.requestCache "k" = some ⟨.vNull, 0, 900000⟩ ∧
    (batchOutcome cfgKeyed (.ok .vNull)
      (request hostApiTest State.initial cfgKeyed 0 netNull time0 "q1").2
      0 5).fromCache = some false :=
  ⟨rfl, rfl, rfl⟩

/-- **C10** (counterexample): the write-through under `skipCache` does
happen, but the promised later cache hit fails for a falsy stored payload:
after a skip-cache request stores JSON `null` under `"k"`, a later request
with the same key and skip-cache unset (within the TTL) still performs a
network call and returns the fresh payload, not the stored one. -/
theorem c10_counterexample :
    mapGet (request hostApiTest State.initial cfgKeyedSkip 0 netNull time0
      "q1").2.requestCache "k" = some ⟨.vNull, 0, 900000⟩ ∧
    (request hostApiTest
      (request hostApiTest State.initial cfgKeyedSkip 0 netNull time0 "q1").2
      cfgKeyed 5 netFresh timeId "q2").1 = .executed (.ok (.vStr "fresh")) 1 :=
  ⟨rfl, rfl⟩

/-- **C6** (confirmed): a request whose configured retry count is
`r = cfg.retries.getD 3` (so the default is 3), against an endpoint whose
every attempt fails with a retryable error (not an abort, no `'404'` in
the message — e.g. HTTP 500), makes exactly `r + 1` fetch attempts and
then rejects with the last observed error. -/
theorem c6_retry_count (urlHost : String → Option String) (st : State)
    (cfg : RequestConfig) (net : Nat → AttemptOutcome) (tOf : Nat → Nat)
    (e : Nat → Err)
    (hfail : ∀ i, i ≤ cfg.retries.getD 3 → net i = .fail (e i) ∧
      (e i).name ≠ "AbortError" ∧ strIncludes (e i).msg "404" = false) :
    (executeRequest urlHost st cfg net tOf).attempts =
      cfg.retries.getD 3 + 1 ∧
    (executeRequest urlHost st cfg net tOf).result =
      .error (e (cfg.retries.getD 3)) := by
  unfold executeRequest
  dsimp only
  rw [execGo_allFail cfg.cacheKey (extractDomain urlHost cfg.url) net tOf e
    (cfg.retries.getD 3 + 1) 0 none st
    (fun i _ h2 => hfail i (by omega)) (by omega)]
  refine ⟨by simp, ?_⟩
  simp

/-- Witness for C6: `retries: 3`, every attempt an HTTP 500 — exactly 4
attempts, rejecting with the HTTP 500 error. -/
theorem c6_retry_count_witness :
    (executeRequest hostApiTest State.initial cfgRetry3 netFail500
      timeId).attempts = 4 ∧
    (executeRequest hostApiTest State.initial cfgRetry3 netFail500
      timeId).result = .error (httpErr 500 "Internal Server Error") := by
  have hname : (httpErr 500 "Internal Server Error").name ≠ "AbortError" := by
    decide
  have h404 : strIncludes (httpErr 500 "Internal Server Error").msg "404"
      = false := by decide
  exact c6_retry_count hostApiTest State.initial cfgRetry3 netFail500 timeId
    (fun _ => httpErr 500 "Internal Server Error")
    (fun _ _ => ⟨rfl, hname, h404⟩)

/-- **C4** (amended): when a direct send exhausts all of its attempts with
(retryable) failures, one failure is recorded against the target domain's
circuit breaker *per failed attempt* — `retries + 1` failures in total,
not one per request — before the last error is propagated to the
caller. -/
theorem c4_amended (urlHost : String → Option String) (st : State)
    (cfg : RequestConfig) (net : Nat → AttemptOutcome) (tOf : Nat → Nat)
    (e : Nat → Err)
    (hfail : ∀ i, i ≤ cfg.retries.getD 3 → net i = .fail (e i) ∧
      (e i).name ≠ "AbortError" ∧ strIncludes (e i).msg "404" = false) :
    (executeRequest urlHost st cfg net tOf).result =
      .error (e (cfg.retries.getD 3)) ∧
    breakerFailures (executeRequest urlHost st cfg net tOf).state
        (extractDomain urlHost cfg.url) =
      breakerFailures st (extractDomain urlHost cfg.url) +
        (cfg.retries.getD 3 + 1) := by
  unfold executeRequest
  dsimp only
  rw [execGo_allFail cfg.cacheKey (extractDomain urlHost cfg.url) net tOf e
    (cfg.retries.getD 3 + 1) 0 none st
    (fun i _ h2 => hfail i (by omega)) (by omega)]
  refine ⟨by simp, ?_⟩
  exact recFailIter_failures (extractDomain urlHost cfg.url) tOf
    (cfg.retries.getD 3 + 1) 0 st

/-- Witness for the amended C4: `retries: 3`, all attempts failing with a
transport error, starting from a fresh breaker — 4 failures recorded. -/
theorem c4_amended_witness :
    (executeRequest hostApiTest State.initial cfgRetry3 netFailNet
      timeId).result = .error ⟨"TypeError", "network error"⟩ ∧
    breakerFailures (executeRequest hostApiTest State.initial cfgRetry3
        netFailNet timeId).state (extractDomain hostApiTest cfgRetry3.url) =
      breakerFailures State.initial (extractDomain hostApiTest cfgRetry3.url)
        + 4 := by
  have hname : (⟨"TypeError", "network error"⟩ : Err).name ≠ "AbortError" := by
    decide
  have h404 : strIncludes (⟨"TypeError", "network error"⟩ : Err).msg "404"
      = false := by decide
  exact c4_amended hostApiTest State.initial cfgRetry3 netFailNet timeId
    (fun _ => ⟨"TypeError", "network error"⟩)
    (fun _ _ => ⟨rfl, hname, h404⟩)

/-- **C7** (amended): for every sequence of `request` calls sharing the
same (truthy) cache key with the skip-cache flag unset, where the first
call is admitted, fetches a *truthy* payload on its first attempt and
caches it, only the first performs a network call; every subsequent call
issued no later than the entry's TTL after the cache write returns the
identical cached payload with no network attempt (its outcome is
independent of the network oracle and it leaves the state unchanged).  A
*falsy* cached payload (e.g. JSON `null`) is instead treated as a cache
miss and re-fetched, because `if (cached)` tests the data's JavaScript
truthiness. -/
theorem c7_amended (urlHost : String → Option String) (st0 : State)
    (cfg : RequestConfig) (t0 : Nat) (net : Nat → AttemptOutcome)
    (tOf : Nat → Nat) (q0 : String) (data : JsonVal)
    (hkeyT : keyTruthy cfg.cacheKey = true)
    (hskip : cfg.skipCache = false)
    (hmiss : mapGet st0.requestCache (cfg.cacheKey.getD "") = none)
    (hb : mapGet st0.circuitBreaker (extractDomain urlHost cfg.url) = none)
    (hrl : RATE_LIMITS (extractDomain urlHost cfg.url) = none)
    (hnet : net 0 = .ok data)
    (htr : data.truthy = true) :
    (request urlHost st0 cfg t0 net tOf q0).1 = .executed (.ok data) 1 ∧
    mapGet (request urlHost st0 cfg t0 net tOf q0).2.requestCache
        (cfg.cacheKey.getD "") =
      some ⟨data, tOf 0, getCacheTTL (extractDomain urlHost cfg.url)⟩ ∧
    ∀ (ts : List Nat) (net2 : Nat → AttemptOutcome) (tOf2 : Nat → Nat),
      (∀ t ∈ ts, t ≤ tOf 0 + getCacheTTL (extractDomain urlHost cfg.url)) →
      runSameRequest urlHost cfg net2 tOf2 ts
          (request urlHost st0 cfg t0 net tOf q0).2 =
        (ts.map (fun _ => .fromCache data),
          (request urlHost st0 cfg t0 net tOf q0).2) := by
  have hreq : request urlHost st0 cfg t0 net tOf q0 =
      (.executed (.ok data) 1,
        resetCircuitBreaker
          (setCache st0 (cfg.cacheKey.getD "") data
            (getCacheTTL (extractDomain urlHost cfg.url)) (tOf 0))
          (extractDomain urlHost cfg.url)) := by
    rw [request_miss urlHost st0 cfg t0 net tOf q0 hkeyT hskip hmiss]
    exact afterCache_success urlHost st0 cfg t0 net tOf q0 data hb hrl hnet
      hkeyT
  have hentry : mapGet (request urlHost st0 cfg t0 net tOf
      q0).2.requestCache (cfg.cacheKey.getD "") =
      some ⟨data, tOf 0, getCacheTTL (extractDomain urlHost cfg.url)⟩ := by
    rw [hreq]
    exact setCache_get_self st0 (cfg.cacheKey.getD "") data
      (getCacheTTL (extractDomain urlHost cfg.url)) (tOf 0)
  refine ⟨by rw [hreq], hentry, ?_⟩
  intro ts net2 tOf2 hts
  induction ts with
  | nil => rfl
  | cons t ts ih =>
    have hhit := request_hit urlHost
      (request urlHost st0 cfg t0 net tOf q0).2 cfg t net2 tOf2 "q"
      ⟨data, tOf 0, getCacheTTL (extractDomain urlHost cfg.url)⟩
      hkeyT hskip hentry
      (Nat.not_lt.mpr (hts t (List.mem_cons_self t ts))) htr
    rw [runSameRequest, hhit]
    simp [ih (fun x hx => hts x (List.mem_cons_of_mem t hx))]

/-- Witness for the amended C7: a first networked fetch of a truthy
payload under key `"k"`, followed by two calls 5 ms and 10 ms later, both
served from cache with the identical payload and unchanged state. -/
theorem c7_amended_witness :
    (request hostApiTest State.initial cfgKeyed 0 netObj time0 "q1").1 =
      .executed (.ok .vObj) 1 ∧
    mapGet (request hostApiTest State.initial cfgKeyed 0 netObj time0
      "q1").2.requestCache (cfgKeyed.cacheKey.getD "") =
      some ⟨.vObj, 0, 900000⟩ ∧
    runSameRequest hostApiTest cfgKeyed netFresh timeId [5, 10]
        (request hostApiTest State.initial cfgKeyed 0 netObj time0 "q1").2 =
      ([.fromCache .vObj, .fromCache .vObj],
        (request hostApiTest State.initial cfgKeyed 0 netObj time0 "q1").2) := by
  obtain ⟨h1, h2, h3⟩ := c7_amended hostApiTest State.initial cfgKeyed 0
    netObj time0 "q1" JsonVal.vObj rfl rfl rfl rfl rfl rfl rfl
  exact ⟨h1, h2, h3 [5, 10] netFresh timeId (by decide)⟩

/-- **C9** (amended): in `batchRequests`, the `fromCache` flag of a
successful outcome is computed by re-querying the cache *after* the
request has completed, so for every request carrying a (truthy) cache key
whose response was fetched over the network with a *truthy* payload and
then written to the cache, the outcome reports `fromCache` as `true` even
though the payload was not served from cache.  (For a falsy payload such
as JSON `null` the re-query is falsy and the flag reads `false`.) -/
theorem c9_amended (urlHost : String → Option String) (st0 : State)
    (cfg : RequestConfig) (t0 : Nat) (net : Nat → AttemptOutcome)
    (tOf : Nat → Nat) (q0 : String) (data : JsonVal) (startT endT : Nat)
    (hkeyT : keyTruthy cfg.cacheKey = true)
    (hskip : cfg.skipCache = false)
    (hmiss : mapGet st0.requestCache (cfg.cacheKey.getD "") = none)
    (hb : mapGet st0.circuitBreaker (extractDomain urlHost cfg.url) = none)
    (hrl : RATE_LIMITS (extractDomain urlHost cfg.url) = none)
    (hnet : net 0 = .ok data)
    (htr : data.truthy = true)
    (hend : endT ≤ tOf 0 + getCacheTTL (extractDomain urlHost cfg.url)) :
    (request urlHost st0 cfg t0 net tOf q0).1 = .executed (.ok data) 1 ∧
    (batchOutcome cfg (.ok data) (request urlHost st0 cfg t0 net tOf q0).2
      startT endT).fromCache = some true := by
  have hreq := request_network_success urlHost st0 cfg t0 net tOf q0 data
    hkeyT (request_miss urlHost st0 cfg t0 net tOf q0 hkeyT hskip hmiss)
    hb hrl hnet
  have hentry : mapGet (request urlHost st0 cfg t0 net tOf
      q0).2.requestCache (cfg.cacheKey.getD "") =
      some ⟨data, tOf 0, getCacheTTL (extractDomain urlHost cfg.url)⟩ := by
    rw [hreq]
    exact setCache_get_self st0 (cfg.cacheKey.getD "") data
      (getCacheTTL (extractDomain urlHost cfg.url)) (tOf 0)
  refine ⟨by rw [hreq], ?_⟩
  unfold batchOutcome
  dsimp only
  rw [hkeyT]
  unfold getFromCache
  rw [hentry]
  dsimp only
  rw [if_neg (Nat.not_lt.mpr hend)]
  dsimp only [optTruthy]
  rw [htr]
  simp

/-- Witness for the amended C9: a networked fetch of a truthy payload
under key `"k"`; the batch outcome built from it reports
`fromCache: true`. -/
theorem c9_amended_witness :
    (request hostApiTest State.initial cfgKeyed 0 netObj time0 "q1").1 =
      .executed (.ok .vObj) 1 ∧
    (batchOutcome cfgKeyed (.ok .vObj)
      (request hostApiTest State.initial cfgKeyed 0 netObj time0 "q1").2
      0 5).fromCache = some true :=
  c9_amended hostApiTest State.initial cfgKeyed 0 netObj time0 "q1"
    JsonVal.vObj 0 5 rfl rfl rfl rfl rfl rfl rfl (by decide)

/-- **C10** (amended): the skip-cache flag bypasses only the cache read:
a request with `skipCache: true` and a (truthy) cache key that fetches a
payload over the network still writes it to the cache under that key —
regardless of the payload — and a later request with the same key and
`skipCache` unset, issued within the TTL, returns the stored payload
without a network call *provided the stored payload is truthy* (a falsy
stored payload is treated as a cache miss and re-fetched). -/
theorem c10_amended (urlHost : String → Option String) (st0 : State)
    (cfg cfg2 : RequestConfig) (t0 : Nat) (net : Nat → AttemptOutcome)
    (tOf : Nat → Nat) (q0 : String) (data : JsonVal) (now2 : Nat)
    (net2 : Nat → AttemptOutcome) (tOf2 : Nat → Nat) (q2 : String)
    (hkeyT : keyTruthy cfg.cacheKey = true)
    (hskip : cfg.skipCache = true)
    (hb : mapGet st0.circuitBreaker (extractDomain urlHost cfg.url) = none)
    (hrl : RATE_LIMITS (extractDomain urlHost cfg.url) = none)
    (hnet : net 0 = .ok data)
    (hkey2 : cfg2.cacheKey = cfg.cacheKey)
    (hskip2 : cfg2.skipCache = false)
    (htr : data.truthy = true)
    (hnow2 : now2 ≤ tOf 0 + getCacheTTL (extractDomain urlHost cfg.url)) :
    (request urlHost st0 cfg t0 net tOf q0).1 = .executed (.ok data) 1 ∧
    mapGet (request urlHost st0 cfg t0 net tOf q0).2.requestCache
        (cfg.cacheKey.getD "") =
      some ⟨data, tOf 0, getCacheTTL (extractDomain urlHost cfg.url)⟩ ∧
    request urlHost (request urlHost st0 cfg t0 net tOf q0).2 cfg2 now2
        net2 tOf2 q2 =
      (.fromCache data, (request urlHost st0 cfg t0 net tOf q0).2) := by
  have hreq := request_network_success urlHost st0 cfg t0 net tOf q0 data
    hkeyT
    (request_nolookup urlHost st0 cfg t0 net tOf q0 (by rw [hskip]; simp))
    hb hrl hnet
  have hentry : mapGet (request urlHost st0 cfg t0 net tOf
      q0).2.requestCache (cfg.cacheKey.getD "") =
      some ⟨data, tOf 0, getCacheTTL (extractDomain urlHost cfg.url)⟩ := by
    rw [hreq]
    exact setCache_get_self st0 (cfg.cacheKey.getD "") data
      (getCacheTTL (extractDomain urlHost cfg.url)) (tOf 0)
  refine ⟨by rw [hreq], hentry, ?_⟩
  exact request_hit urlHost (request urlHost st0 cfg t0 net tOf q0).2 cfg2
    now2 net2 tOf2 q2
    ⟨data, tOf 0, getCacheTTL (extractDomain urlHost cfg.url)⟩
    (by rw [hkey2]; exact hkeyT) hskip2 (by rw [hkey2]; exact hentry)
    (Nat.not_lt.mpr hnow2) htr

/-- Witness for the amended C10: a skip-cache request stores a truthy
payload under `"k"`; a later plain request with the same key returns it
from cache with the state unchanged. -/
theorem c10_amended_witness :
    (request hostApiTest State.initial cfgKeyedSkip 0 netObj time0 "q1").1 =
      .executed (.ok .vObj) 1 ∧
    mapGet (request hostApiTest State.initial cfgKeyedSkip 0 netObj time0
      "q1").2.requestCache (cfgKeyedSkip.cacheKey.getD "") =
      some ⟨.vObj, 0, 900000⟩ ∧
    request hostApiTest
        (request hostApiTest State.initial cfgKeyedSkip 0 netObj time0
          "q1").2 cfgKeyed 5 netFresh timeId "q2" =
      (.fromCache .vObj,
        (request hostApiTest State.initial cfgKeyedSkip 0 netObj time0
          "q1").2) :=
  c10_amended hostApiTest State.initial cfgKeyedSkip cfgKeyed 0 netObj
    time0 "q1" JsonVal.vObj 5 netFresh timeId "q2" rfl rfl rfl rfl rfl rfl
    rfl rfl (by decide)

/-- **C2** (amended): for every domain, (i) a recorded failure that
brings the consecutive-failure count to the threshold of 5 opens the
breaker; (ii) while the breaker is open and at most 60000 ms have passed
since the last failure, every request that does not consult the cache
fails immediately with a circuit-open error — no network attempt, no
queuing, no state change; (iii) once strictly more than 60000 ms have
passed, the *first admission check fully closes the breaker and resets its
failure count to 0*, so every subsequent request is allowed through — not
just a single trial; and (iv) a single subsequent failure does *not*
reopen the breaker (it merely sets the count to 1): reopening requires the
count to climb back to the threshold. -/
theorem c2_amended :
    (∀ (st : State) (d : String) (now : Nat),
      CIRCUIT_BREAKER_CONFIG.failureThreshold ≤ breakerFailures st d + 1 →
      (mapGet (recordFailure st d now).circuitBreaker d).map
        CircuitBreaker.isOpen = some true) ∧
    (∀ (urlHost : String → Option String) (st : State)
      (cfg : RequestConfig) (now : Nat) (net : Nat → AttemptOutcome)
      (tOf : Nat → Nat) (qid : String) (b : CircuitBreaker),
      (keyTruthy cfg.cacheKey && !cfg.skipCache) = false →
      mapGet st.circuitBreaker (extractDomain urlHost cfg.url) = some b →
      b.isOpen = true →
      ¬ now - b.lastFailure > CIRCUIT_BREAKER_CONFIG.resetTimeout →
      request urlHost st cfg now net tOf qid =
        (.circuitOpen (extractDomain urlHost cfg.url), st)) ∧
    (∀ (st : State) (d : String) (now : Nat) (b : CircuitBreaker),
      mapGet st.circuitBreaker d = some b → b.isOpen = true →
      now - b.lastFailure > CIRCUIT_BREAKER_CONFIG.resetTimeout →
      isCircuitOpen st d now =
        (false, { st with
          circuitBreaker :=
            mapSet st.circuitBreaker d ⟨0, b.lastFailure, false⟩ }) ∧
      ∀ now2, (isCircuitOpen { st with
        circuitBreaker :=
          mapSet st.circuitBreaker d ⟨0, b.lastFailure, false⟩ } d
          now2).1 = false) ∧
    (∀ (st : State) (d : String) (t now : Nat),
      mapGet st.circuitBreaker d = some ⟨0, t, false⟩ →
      mapGet (recordFailure st d now).circuitBreaker d =
        some ⟨1, now, false⟩ ∧
      ∀ now2, (isCircuitOpen (recordFailure st d now) d now2).1 = false) := by
  refine ⟨?_, ?_, ?_, ?_⟩
  · intro st d now h
    unfold recordFailure
    dsimp only
    rw [mapGet_mapSet_self]
    unfold breakerFailures at h
    cases hm : mapGet st.circuitBreaker d <;> rw [hm] at h <;>
      simp at h <;> simp [hm, h]
  · intro urlHost st cfg now net tOf qid b hc hb hopen hcool
    rw [request_nolookup urlHost st cfg now net tOf qid hc]
    exact requestAfterCache_open urlHost st cfg _ now net tOf qid b hb
      hopen hcool
  · intro st d now b hb hopen hcool
    refine ⟨isCircuitOpen_cooldown st d now b hb hopen hcool, ?_⟩
    intro now2
    rw [isCircuitOpen_closed _ d now2 ⟨0, b.lastFailure, false⟩
      (mapGet_mapSet_self _ _ _) rfl]
  · intro st d t now hb
    have h1 : mapGet (recordFailure st d now).circuitBreaker d =
        some ⟨1, now, false⟩ := by
      unfold recordFailure
      rw [hb]
      simp [mapGet_mapSet_self, CIRCUIT_BREAKER_CONFIG]
    refine ⟨h1, ?_⟩
    intro now2
    rw [isCircuitOpen_closed _ d now2 ⟨1, now, false⟩ h1 rfl]

/-- Witness for the amended C2: a fifth failure opens the breaker; the
open breaker rejects a request at 60000 ms with a circuit-open error and
unchanged state; at 60001 ms the admission check fully closes it (and a
second check at the same state also passes); a failure on the half-open
breaker leaves it closed with one failure. -/
theorem c2_amended_witness :
    (mapGet (recordFailure
        { State.initial with circuitBreaker := [("d", ⟨4, 0, false⟩)] }
        "d" 7).circuitBreaker "d").map CircuitBreaker.isOpen = some true ∧
    request (fun _ => some "d") stBreakerOpen cfgBadUrl 60000 netObj timeId
      "q" = (.circuitOpen "d", stBreakerOpen) ∧
    isCircuitOpen stBreakerOpen "d" 60001 =
      (false, { stBreakerOpen with
        circuitBreaker :=
          mapSet stBreakerOpen.circuitBreaker "d" ⟨0, 0, false⟩ }) ∧
    (isCircuitOpen { stBreakerOpen with
      circuitBreaker :=
        mapSet stBreakerOpen.circuitBreaker "d" ⟨0, 0, false⟩ } "d"
        60001).1 = false ∧
    mapGet (recordFailure
        { State.initial with circuitBreaker := [("d", ⟨0, 3, false⟩)] }
        "d" 9).circuitBreaker "d" = some ⟨1, 9, false⟩ :=
  ⟨c2_amended.1 _ "d" 7 (by decide),
   c2_amended.2.1 (fun _ => some "d") stBreakerOpen cfgBadUrl 60000 netObj
     timeId "q" ⟨5, 0, true⟩ (by decide) (by decide) rfl (by decide),
   (c2_amended.2.2.1 stBreakerOpen "d" 60001 ⟨5, 0, true⟩ (by decide) rfl
     (by decide)).1,
   (c2_amended.2.2.1 stBreakerOpen "d" 60001 ⟨5, 0, true⟩ (by decide) rfl
     (by decide)).2 60001,
   (c2_amended.2.2.2 { State.initial with
     circuitBreaker := [("d", ⟨0, 3, false⟩)] } "d" 3 9 (by decide)).1⟩

/-- **C5** (amended): a malformed target URL resolves to the sentinel
`"unknown"` bucket, which has no configured rate limit and is therefore
never queued for rate limiting; but the bucket *is* subject to the
circuit breaker like any other domain: failures accumulate against
`"unknown"`, and once its breaker is open a request with a malformed URL
is rejected with a circuit-open error. -/
theorem c5_amended :
    (∀ (urlHost : String → Option String) (u : String), urlHost u = none →
      extractDomain urlHost u = "unknown") ∧
    RATE_LIMITS "unknown" = none ∧
    (∀ (st : State) (now : Nat),
      checkRateLimit st "unknown" now = (true, st)) ∧
    (∀ (urlHost : String → Option String) (st : State)
      (cfg : RequestConfig) (now : Nat) (net : Nat → AttemptOutcome)
      (tOf : Nat → Nat) (qid : String), urlHost cfg.url = none →
      ∀ q, (request urlHost st cfg now net tOf qid).1 ≠ .queued q) ∧
    (∀ (urlHost : String → Option String) (st : State)
      (cfg : RequestConfig) (now : Nat) (net : Nat → AttemptOutcome)
      (tOf : Nat → Nat) (qid : String) (b : CircuitBreaker),
      urlHost cfg.url = none →
      (keyTruthy cfg.cacheKey && !cfg.skipCache) = false →
      mapGet st.circuitBreaker "unknown" = some b → b.isOpen = true →
      ¬ now - b.lastFailure > CIRCUIT_BREAKER_CONFIG.resetTimeout →
      (request urlHost st cfg now net tOf qid).1 = .circuitOpen "unknown") := by
  have hext : ∀ (urlHost : String → Option String) (u : String),
      urlHost u = none → extractDomain urlHost u = "unknown" := by
    intro urlHost u h
    unfold extractDomain
    rw [h]
  refine ⟨hext, rfl, ?_, ?_, ?_⟩
  · intro st now
    exact checkRateLimit_unlimited st "unknown" now rfl
  · intro urlHost st cfg now net tOf qid h q
    have hd := hext urlHost cfg.url h
    apply request_not_queued_of_unlimited
    rw [hd]
    decide
  · intro urlHost st cfg now net tOf qid b h hc hb hopen hcool
    have hd := hext urlHost cfg.url h
    rw [request_nolookup urlHost st cfg now net tOf qid hc]
    rw [hd] at *
    rw [requestAfterCache_open urlHost st cfg "unknown" now net tOf qid b
      hb hopen hcool]

/-- Witness for the amended C5: with every URL malformed, a request is
never queued, and after five recorded failures against `"unknown"` the
next request is rejected with a circuit-open error for `"unknown"`. -/
theorem c5_amended_witness :
    extractDomain hostNone "notaurl" = "unknown" ∧
    checkRateLimit State.initial "unknown" 5 = (true, State.initial) ∧
    (request hostNone State.initial cfgBadUrl 0 netObj timeId "q").1 ≠
      .queued "z" ∧
    (request hostNone stUnknown5 cfgBadUrl 1000 netObj timeId "q").1 =
      .circuitOpen "unknown" :=
  ⟨c5_amended.1 hostNone "notaurl" rfl,
   c5_amended.2.2.1 State.initial 5,
   c5_amended.2.2.2.1 hostNone State.initial cfgBadUrl 0 netObj timeId "q"
     rfl "z",
   c5_amended.2.2.2.2 hostNone stUnknown5 cfgBadUrl 1000 netObj timeId "q"
     ⟨5, 0, true⟩ rfl (by decide) (by decide) rfl (by decide)⟩

/-- **C3** (amended): for every domain with configured quota N per window
W, (i) no more than N requests are admitted to the network *within any
single limiter window* (windows are identified by their reset instant;
across a window boundary a W-length interval can see up to 2N−1 sends, so
the original "any W-length interval" bound fails — see the
counterexample); (ii) a request that is refused by the limiter (with the
breaker closed and the cache not serving it) is enqueued, not dropped:
the queue grows by exactly that entry and keeps every existing entry; and
(iii) once the window has reset, the drain loop sends the queued request
at the head of the queue. -/
theorem c3_amended :
    (∀ (d : String) (c : RateLimitCfg), RATE_LIMITS d = some c →
      ∀ (trace : List Nat) (r : Nat),
        windowAllowed (runLimiter d trace State.initial) r ≤ c.requests) ∧
    (∀ (urlHost : String → Option String) (st : State)
      (cfg : RequestConfig) (now : Nat) (net : Nat → AttemptOutcome)
      (tOf : Nat → Nat) (qid : String),
      (keyTruthy cfg.cacheKey && !cfg.skipCache) = false →
      (isCircuitOpen st (extractDomain urlHost cfg.url) now).1 = false →
      (checkRateLimit (isCircuitOpen st (extractDomain urlHost cfg.url)
        now).2 (extractDomain urlHost cfg.url) now).1 = false →
      (request urlHost st cfg now net tOf qid).1 = .queued qid ∧
      (request urlHost st cfg now net tOf qid).2.requestQueue.length =
        st.requestQueue.length + 1 ∧
      ∀ q ∈ st.requestQueue,
        q ∈ (request urlHost st cfg now net tOf qid).2.requestQueue) ∧
    (∀ (urlHost : String → Option String) (timeAt : Nat → Nat)
      (net : Nat → Nat → AttemptOutcome) (tOf : Nat → Nat → Nat)
      (st : State) (fuel : Nat) (qr : QueuedRequest)
      (rest : List QueuedRequest) (l : RateLimiter),
      st.requestQueue = qr :: rest →
      mapGet st.rateLimiter (extractDomain urlHost qr.config.url) =
        some l →
      timeAt 0 ≥ l.resetTime →
      mapGet st.circuitBreaker (extractDomain urlHost qr.config.url) =
        none →
      ∃ v, (processQueueGo urlHost timeAt net tOf 0 (fuel + 1)
        st).1.head? = some (qr.id, v)) := by
  refine ⟨?_, ?_, ?_⟩
  · intro d c hc trace r
    obtain ⟨hreq, hwin⟩ := RATE_LIMITS_pos d c hc
    have hb := runLimiter_window_bound d c hc hreq hwin trace State.initial
      r (fun l hl => by simp [State.initial, mapGet] at hl)
    have hz : windowContrib State.initial d r = 0 := rfl
    omega
  · intro urlHost st cfg now net tOf qid hcond hio hrl
    rw [request_nolookup urlHost st cfg now net tOf qid hcond]
    rw [requestAfterCache_queued urlHost st cfg _ now net tOf qid hio hrl]
    refine ⟨rfl, ?_, ?_⟩
    · rw [queueRequest_length]
      rw [isCircuitOpen_queue]
    · intro q hq
      apply queueRequest_mem
      rw [isCircuitOpen_queue]
      exact hq
  · intro urlHost timeAt net tOf st fuel qr rest l hq hm hrt hbr
    rw [processQueueGo]
    rw [hq]
    dsimp only
    have hm0 : mapGet ({ st with requestQueue := rest } :
        State).rateLimiter (extractDomain urlHost qr.config.url) = some l :=
      hm
    cases hcr : RATE_LIMITS (extractDomain urlHost qr.config.url) with
    | none =>
      rw [checkRateLimit_unlimited _ _ _ hcr]
      dsimp only
      unfold isCircuitOpen
      dsimp only
      rw [hbr]
      exact ⟨_, rfl⟩
    | some c =>
      rw [checkRateLimit_reset_elapsed _ c _ (timeAt 0) l hcr hm0 hrt]
      dsimp only
      unfold isCircuitOpen
      dsimp only
      rw [hbr]
      exact ⟨_, rfl⟩

/-- Witness for the amended C3: the per-window bound instantiated for
`ip-api.com`; a rate-limited nominatim request at instant 5 is enqueued
(queue length 0 → 1); and with the window elapsed at instant 2000 the
drain loop resolves the head of the queue (`"medium-req"`) first. -/
theorem c3_amended_witness :
    windowAllowed (runLimiter "ip-api.com" [0, 1, 2] State.initial) 60000
      ≤ 45 ∧
    (request hostNominatim stNomLimited cfgNomMedium 5 netObj timeId
      "q7").1 = .queued "q7" ∧
    (request hostNominatim stNomLimited cfgNomMedium 5 netObj timeId
      "q7").2.requestQueue.length = stNomLimited.requestQueue.length + 1 ∧
    ((processQueueGo hostNominatim (fun k => 2000 + 2000 * k)
      (fun _ _ => .ok .vObj) (fun _ _ => 0) 0 (1 + 1)
      stQueueMH).1.head?.map Prod.fst) = some "medium-req" := by
  obtain ⟨v, hv⟩ := c3_amended.2.2 hostNominatim (fun k => 2000 + 2000 * k)
    (fun _ _ => .ok .vObj) (fun _ _ => 0) stQueueMH 1
    ⟨"medium-req", cfgNomMedium, 1, 0⟩ [⟨"high-req", cfgNomHigh, 1, 1⟩]
    ⟨1, 1000⟩ (by decide) (by decide) (by decide) (by decide)
  refine ⟨c3_amended.1 "ip-api.com" ⟨45, 60000⟩ rfl [0, 1, 2] 60000,
    (c3_amended.2.1 hostNominatim stNomLimited cfgNomMedium 5 netObj timeId
      "q7" (by decide) (by decide) (by decide)).1,
    (c3_amended.2.1 hostNominatim stNomLimited cfgNomMedium 5 netObj timeId
      "q7" (by decide) (by decide) (by decide)).2.1, ?_⟩
  rw [hv]
  rfl

/-! ### Batch shape -/

theorem batchGo_length (resOf : Nat → Except Err JsonVal)
    (stAfter : Nat → State) (startT endT : Nat → Nat) :
    ∀ (cfgs : List RequestConfig) (i : Nat),
      (batchGo resOf stAfter startT endT i cfgs).length = cfgs.length := by
  intro cfgs
  induction cfgs with
  | nil => intro i; rfl
  | cons c cs ih =>
    intro i
    rw [batchGo]
    simp [ih (i + 1)]

theorem batchGo_get (resOf : Nat → Except Err JsonVal)
    (stAfter : Nat → State) (startT endT : Nat → Nat) :
    ∀ (cfgs : List RequestConfig) (i j : Nat),
      (batchGo resOf stAfter startT endT i cfgs).get? j =
        (cfgs.get? j).map (fun c =>
          batchOutcome c (resOf (i + j)) (stAfter (i + j))
            (startT (i + j)) (endT (i + j))) := by
  intro cfgs
  induction cfgs with
  | nil => intro i j; cases j <;> rfl
  | cons c cs ih =>
    intro i j
    cases j with
    | zero => simp [batchGo]
    | succ m =>
      rw [batchGo]
      rw [List.get?_cons_succ, List.get?_cons_succ, ih (i + 1) m]
      have harith : ∀ x : Nat, i + 1 + x = i + (x + 1) := by omega
      rw [harith m]

/-- **C8** (confirmed): for every list of K request configurations,
`batchRequests` returns exactly K outcome records; the j-th outcome is
built from the j-th input configuration (order preserved); and every
per-item error is converted into a structured failure record
(`success: false`, the error's message, the measured duration) — the
batch never fails as a whole, since each per-item closure catches its own
error. -/
theorem c8_batch_shape (cfgs : List RequestConfig)
    (resOf : Nat → Except Err JsonVal) (stAfter : Nat → State)
    (startT endT : Nat → Nat) :
    (batchRequests cfgs resOf stAfter startT endT).length = cfgs.length ∧
    (∀ j, (batchRequests cfgs resOf stAfter startT endT).get? j =
      (cfgs.get? j).map (fun c =>
        batchOutcome c (resOf j) (stAfter j) (startT j) (endT j))) ∧
    (∀ j c e, cfgs.get? j = some c → resOf j = .error e →
      (batchRequests cfgs resOf stAfter startT endT).get? j =
        some ⟨false, none, some e.msg, endT j - startT j, none⟩) := by
  have hg : ∀ j, (batchRequests cfgs resOf stAfter startT endT).get? j =
      (cfgs.get? j).map (fun c =>
        batchOutcome c (resOf j) (stAfter j) (startT j) (endT j)) := by
    intro j
    have := batchGo_get resOf stAfter startT endT cfgs 0 j
    simpa using this
  refine ⟨batchGo_length resOf stAfter startT endT cfgs 0, hg, ?_⟩
  intro j c e hc he
  rw [hg j, hc]
  dsimp only [Option.map_some']
  rw [he]
  rfl

/-- Witness for C8: a two-request batch, the first succeeding and the
second failing with HTTP 500: two outcomes, and the second is the
structured failure record. -/
theorem c8_batch_shape_witness :
    (batchRequests [cfgKeyed, cfgBadUrl]
      (fun i => if i = 0 then .ok .vObj else .error ⟨"Error", "HTTP 500: x"⟩)
      (fun _ => State.initial) (fun _ => 0) (fun i => 2 * i)).length = 2 ∧
    (batchRequests [cfgKeyed, cfgBadUrl]
      (fun i => if i = 0 then .ok .vObj else .error ⟨"Error", "HTTP 500: x"⟩)
      (fun _ => State.initial) (fun _ => 0) (fun i => 2 * i)).get? 1 =
      some ⟨false, none, some "HTTP 500: x", 2, none⟩ :=
  ⟨(c8_batch_shape [cfgKeyed, cfgBadUrl] _ _ _ _).1,
   (c8_batch_shape [cfgKeyed, cfgBadUrl]
      (fun i => if i = 0 then .ok .vObj else .error ⟨"Error", "HTTP 500: x"⟩)
      (fun _ => State.initial) (fun _ => 0) (fun i => 2 * i)).2.2 1
    cfgBadUrl ⟨"Error", "HTTP 500: x"⟩ rfl rfl⟩

end APIOptimizer
